import Mathlib

/-!
Shallow embedding of the trend-detection engine of the Stock-Market-Evaluation
repository (src/utils.py) and proofs about it.  Prices and parameters are
modelled as exact rationals; a pandas series that may contain NaN entries is
modelled as a list of optional rationals (`none` = NaN); a raised
`ValueError("msg")` is modelled as `Except.error msg`.
-/

set_option autoImplicit false

namespace StockSpec

/-- Error message raised by both local fitters when fewer than two points are given. -/
def msgTwoPoints : String := "At least two points are required to draw a line."

/-- Error message of `fit_resistance_from_maxima` when no anchor yields a valid line. -/
def msgNoResistance : String := "Unable to find a valid resistance."

/-- Error message of `fit_support_from_minimum` when no anchor yields a valid line. -/
def msgNoSupport : String := "Unable to find a valid support."

/-- Error message of `find_trend` for short trends. -/
def msgTrendLength : String := "At least 3 periods are required for a trend."

/-- Error message of `global_trend` when fewer than two High peaks are found. -/
def msgPeaksResistance : String := "Not enough peaks to detect global resistance."

/-- Error message of `global_trend` when fewer than two Low troughs are found. -/
def msgPeaksSupport : String := "Not enough peaks to detect global support."

/-- Error used where python raises `IndexError` (empty `.index[0]` lookup). -/
def msgIndexError : String := "IndexError"

/-- Embeds `calc_line_params` (src/utils.py line 5): slope and intercept of the line
through two points, with the degenerate equal-x case giving slope 0. -/
def calc_line_params (x1 y1 x2 y2 : ℚ) : ℚ × ℚ :=
  let a : ℚ := if x2 ≠ x1 then (y2 - y1) / (x2 - x1) else 0
  let b : ℚ := y1 - a * x1
  (a, b)

/-- Embeds `distance_to_line` (src/utils.py line 11): vertical signed distance
from the point `(x, y)` to the line `y = a*x + b`. -/
def distance_to_line (a b x y : ℚ) : ℚ := y - (a * x + b)

/-- Embeds `Series.dropna` on a value series: NaN entries (`none`) are removed. -/
def dropna (s : List (Option ℚ)) : List ℚ := s.filterMap id

/-- Python slice `l[a:b]` for `0 ≤ a ≤ b` (used positionally throughout the source). -/
def slicePy {α : Type} (l : List α) (a b : ℕ) : List α := (l.take b).drop a

/-- Inner loop of `check_fit_resistance` (src/utils.py lines 28-37) over the
remaining point indices: reject (`none`) when a point lies above the line by more
than `y_line * tolerance`.  The loop's `n_touches` counter is dead code in the
source (never returned) and is omitted. -/
def checkResLoop (y : List ℚ) (tol a b : ℚ) (x1 x2 : ℕ) : List ℕ → Option (ℚ × ℚ)
  | [] => some (a, b)
  | i :: is =>
    if i = x1 ∨ i = x2 then checkResLoop y tol a b x1 x2 is
    else
      let yLine : ℚ := a * (i : ℚ) + b
      let delta : ℚ := y.getD i 0 - yLine
      if yLine * tol < delta then none
      else checkResLoop y tol a b x1 x2 is

/-- Embeds `check_fit_resistance` (src/utils.py lines 24-39): fit the line through
points `x1` and `x2` of the (NaN-free) value list and validate every other point. -/
def check_fit_resistance (y : List ℚ) (tol : ℚ) (x1 x2 : ℕ) : Option (ℚ × ℚ) :=
  let ab := calc_line_params (x1 : ℚ) (y.getD x1 0) (x2 : ℚ) (y.getD x2 0)
  checkResLoop y tol ab.1 ab.2 x1 x2 (List.range y.length)

/-- Anchor loop of `fit_resistance_from_maxima` (src/utils.py lines 41-47). -/
def fitResLoop (ms : List ℚ) (tol : ℚ) : List ℕ → Except String (ℚ × ℚ × List ℚ)
  | [] => .error msgNoResistance
  | s :: ss =>
    match check_fit_resistance ms tol s (ms.length - 1) with
    | some ab => .ok (ab.1, ab.2, slicePy ms s ((ms.length - 1) + 1))
    | none => fitResLoop ms tol ss

/-- Embeds `fit_resistance_from_maxima` (src/utils.py lines 15-47).  The unused
`close_series` parameter of the source is omitted.  The length check precedes
`dropna`, exactly as in the source. -/
def fit_resistance_from_maxima (max_series : List (Option ℚ)) (tol : ℚ) :
    Except String (ℚ × ℚ × List ℚ) :=
  if max_series.length < 2 then .error msgTwoPoints
  else
    let ms := dropna max_series
    fitResLoop ms tol (List.range (ms.length - 2))

/-- Inner loop of `check_fit_support` (src/utils.py lines 62-71): reject when a
point lies below the line by more than `abs (y_line * tolerance)`. -/
def checkSupLoop (y : List ℚ) (tol a b : ℚ) (x1 x2 : ℕ) : List ℕ → Option (ℚ × ℚ)
  | [] => some (a, b)
  | i :: is =>
    if i = x1 ∨ i = x2 then checkSupLoop y tol a b x1 x2 is
    else
      let yLine : ℚ := a * (i : ℚ) + b
      let delta : ℚ := y.getD i 0 - yLine
      if delta < -|yLine * tol| then none
      else checkSupLoop y tol a b x1 x2 is

/-- Embeds `check_fit_support` (src/utils.py lines 58-73). -/
def check_fit_support (y : List ℚ) (tol : ℚ) (x1 x2 : ℕ) : Option (ℚ × ℚ) :=
  let ab := calc_line_params (x1 : ℚ) (y.getD x1 0) (x2 : ℚ) (y.getD x2 0)
  checkSupLoop y tol ab.1 ab.2 x1 x2 (List.range y.length)

/-- Anchor loop of `fit_support_from_minimum` (src/utils.py lines 75-81). -/
def fitSupLoop (ms : List ℚ) (tol : ℚ) : List ℕ → Except String (ℚ × ℚ × List ℚ)
  | [] => .error msgNoSupport
  | s :: ss =>
    match check_fit_support ms tol s (ms.length - 1) with
    | some ab => .ok (ab.1, ab.2, slicePy ms s ((ms.length - 1) + 1))
    | none => fitSupLoop ms tol ss

/-- Embeds `fit_support_from_minimum` (src/utils.py lines 49-81). -/
def fit_support_from_minimum (min_series : List (Option ℚ)) (tol : ℚ) :
    Except String (ℚ × ℚ × List ℚ) :=
  if min_series.length < 2 then .error msgTwoPoints
  else
    let ms := dropna min_series
    fitSupLoop ms tol (List.range (ms.length - 2))

/-- Embeds `np.sign` on a rational value. -/
def qsign (q : ℚ) : ℤ := if 0 < q then 1 else if q < 0 then -1 else 0

/-- Sign of a possibly-NaN entry: `np.sign(nan) = nan`, modelled as `none`. -/
def sgnOpt : Option ℚ → Option ℤ
  | none => none
  | some q => some (qsign q)

/-- Equality test `np.sign(a) == np.sign(b)` with NaN semantics: comparisons
involving NaN are false (this includes `nan == nan`). -/
def signEq : Option ℤ → Option ℤ → Bool
  | some a, some b => a = b
  | _, _ => false

/-- Sign of the series entry at (already nonnegative) position `k`; out-of-range
positions never occur on reachable paths and default to NaN. -/
def sgnAt (d : List (Option ℚ)) (k : ℕ) : Option ℤ := sgnOpt (d.getD k none)

/-- Embeds `Series.diff()`: the first entry is NaN, entry `i` is `m[i] - m[i-1]`. -/
def diffList (m : List ℚ) : List (Option ℚ) :=
  match m with
  | [] => []
  | _ :: tl => none :: (tl.zip m).map (fun p => some (p.1 - p.2))

/-- Inner loop of `find_trend_index` (src/utils.py lines 88-98), iterating over
`j` values.  Python's negative index `m[-t]` is position `len - t`; the loop body
counts consecutive sign matches, tolerating one mismatch by looking one entry
further back (index `-2-i-j`, guarded by the bound check `abs(-2-i-j) <= len`),
and breaks otherwise.  The `tmp` variable of the source is always `0`. -/
def countLoop (d : List (Option ℚ)) (s : Option ℤ) (i : ℕ) : List ℕ → ℕ
  | [] => 0
  | j :: js =>
    if signEq (sgnAt d (d.length - (1 + i + j))) s then 1 + countLoop d s i js
    else if 2 + i + j ≤ d.length then
      if signEq (sgnAt d (d.length - (2 + i + j))) s then 1 + countLoop d s i js
      else 0
    else 0

/-- The `count` computed by one outer iteration of `find_trend_index` for a given `i`. -/
def countFor (d : List (Option ℚ)) (i : ℕ) : ℕ :=
  countLoop d (sgnAt d (d.length - i)) i (List.range (d.length - i))

/-- Outer loop of `find_trend_index` (src/utils.py lines 85-100): try
`i = 1, 2, ...`, stopping at the first `i` with `count >= 2`; if no `i` breaks the
loop, python leaves `i` at its last value.  Returns the chosen `(i, count)`. -/
def findTrendIndexLoop (d : List (Option ℚ)) : List ℕ → ℕ × ℕ
  | [] => (0, 0)
  | [i] => (i, countFor d i)
  | i :: j :: js =>
    if 2 ≤ countFor d i then (i, countFor d i) else findTrendIndexLoop d (j :: js)

/-- Embeds `find_trend_index` (src/utils.py lines 83-101): returns
`(len - i, count + 1)` for the chosen outer iteration.  The empty-series case
(python `NameError`) is unreachable under the nonempty hypothesis used below. -/
def find_trend_index (d : List (Option ℚ)) : ℕ × ℕ :=
  let ic := findTrendIndexLoop d (List.range' 1 d.length)
  (d.length - ic.1, ic.2 + 1)

/-- Embeds `find_trend` (src/utils.py lines 103-113): compute the trend window on
the diff of the moving average and slice all three series to
`[index - frame : index + 1]`. -/
def find_trend (moyenne_mobile max_mobile min_mobile : List ℚ) :
    Except String (List ℚ × List ℚ × List ℚ × ℕ × ℕ) :=
  let itf := find_trend_index (diffList moyenne_mobile)
  let index := itf.1
  let frame := itf.2
  if frame < 2 then .error msgTrendLength
  else
    .ok (slicePy moyenne_mobile (index - frame) (index + 1),
         slicePy max_mobile (index - frame) (index + 1),
         slicePy min_mobile (index - frame) (index + 1),
         frame, index)

/-- One bar of the OHLC dataframe restricted to the columns the engine reads:
`periode` (the resample bucket, a datetime in the source, modelled as an ordered
rational label), `High` and `Low`. -/
structure Row where
  periode : ℚ
  high : ℚ
  low : ℚ

/-- The dataframe: an ordered list of bars, positionally indexed `0..n-1`
(the source resets the index after loading). -/
structure Df where
  rows : List Row

/-- Number of bars (`df.shape[0]`). -/
def Df.n (df : Df) : ℕ := df.rows.length

/-- The `High` column. -/
def Df.high (df : Df) : List ℚ := df.rows.map Row.high

/-- The `Low` column. -/
def Df.low (df : Df) : List ℚ := df.rows.map Row.low

/-- `df['High'].iloc[k]`. -/
def Df.highD (df : Df) (k : ℕ) : ℚ := df.high.getD k 0

/-- `df['Low'].iloc[k]`. -/
def Df.lowD (df : Df) (k : ℕ) : ℚ := df.low.getD k 0

/-- The line-segment array pattern shared by `define_resistance`,
`define_support`, `test_resistance_glob` and `test_support_glob`:
`np.zeros(n)` with `arr[x0:x1+1] = a * arange(x0, x1+1) + b`.
Requires `x1 < n` at every call site (numpy broadcast would fail otherwise). -/
def lineArray (n x0 x1 : ℕ) (a b : ℚ) : List ℚ :=
  (List.range n).map (fun i => if x0 ≤ i ∧ i ≤ x1 then a * (i : ℚ) + b else 0)

/-- Index scan underlying the `.index[0]` lookups: first position (counting from
`k`) whose row satisfies the predicate. -/
def findRowIdxAux (p : Row → Bool) : List Row → ℕ → Option ℕ
  | [], _ => none
  | r :: rs, k => if p r then some k else findRowIdxAux p rs (k + 1)

/-- First positional index of a df row matching
`(df['periode'] == target) & (df[col] == value)`, i.e. `.index[0]` of the filter. -/
def findRowIdx (df : Df) (p : Row → ℚ) (target value : ℚ) : Option ℕ :=
  findRowIdxAux (fun r => decide (r.periode = target) && decide (p r = value)) df.rows 0

/-- Embeds `define_resistance` (src/utils.py lines 115-132).  The series
`new_max_mobile` is a list of `(periode label, value)` pairs; `new_max_mobile[0]`
and `[-1]` are positional accesses (the runtime index is a datetime, for which
integer access falls back to positions).  A failed `.index[0]` lookup is a python
`IndexError`, modelled as an error. -/
def define_resistance (new_max : List (ℚ × ℚ)) (df : Df) : Except String (List ℚ) :=
  match new_max.head?, new_max.getLast? with
  | some hd, some lst =>
    match findRowIdx df Row.high hd.1 hd.2, findRowIdx df Row.high lst.1 lst.2 with
    | some x0, some x1 =>
      let ab := calc_line_params (x0 : ℚ) hd.2 (x1 : ℚ) lst.2
      .ok (lineArray df.n x0 x1 ab.1 ab.2)
    | _, _ => .error msgIndexError
  | _, _ => .error msgIndexError

/-- Embeds `define_support` (src/utils.py lines 134-151). -/
def define_support (new_min : List (ℚ × ℚ)) (df : Df) : Except String (List ℚ) :=
  match new_min.head?, new_min.getLast? with
  | some hd, some lst =>
    match findRowIdx df Row.low hd.1 hd.2, findRowIdx df Row.low lst.1 lst.2 with
    | some x0, some x1 =>
      let ab := calc_line_params (x0 : ℚ) hd.2 (x1 : ℚ) lst.2
      .ok (lineArray df.n x0 x1 ab.1 ab.2)
    | _, _ => .error msgIndexError
  | _, _ => .error msgIndexError

/-- Mean of a list of rationals (0 for the empty list; unreachable there). -/
def listMean (xs : List ℚ) : ℚ := xs.sum / (xs.length : ℚ)

/-- Embeds `Series.var()` (pandas sample variance, `ddof=1`).  For fewer than two
entries pandas yields NaN; that case is unreachable on the paths proved about and
is mapped to 0. -/
def sampleVar (xs : List ℚ) : ℚ :=
  if xs.length ≤ 1 then 0
  else ((xs.map (fun x => (x - listMean xs) ^ 2)).sum) / ((xs.length : ℚ) - 1)

/-- The quantity `variance_high + variance_low` computed in `global_trend` and
`find_psychological_levels`; its square root is the volatility scale `pas`. -/
def variance_total (df : Df) : ℚ := sampleVar df.high + sampleVar df.low

/-- Embeds `df['High'].max()` (0 for an empty df, unreachable). -/
def listMaxD (xs : List ℚ) : ℚ :=
  match xs with
  | [] => 0
  | x :: tl => tl.foldl max x

/-- Embeds `df['Low'].min()`. -/
def listMinD (xs : List ℚ) : ℚ :=
  match xs with
  | [] => 0
  | x :: tl => tl.foldl min x

/-- Embeds `np.linspace(a, b, num)` over exact rationals. -/
def linspace (a b : ℚ) (num : ℕ) : List ℚ :=
  if num = 0 then []
  else if num = 1 then [a]
  else (List.range num).map (fun k => a + (k : ℚ) * (b - a) / ((num : ℚ) - 1))

/-- Touch count of a candidate price `val` (src/utils.py lines 165-168): the
number of bars whose High or Low lies within `val ± val * tolerance`. -/
def touchCount (df : Df) (val tol : ℚ) : ℕ :=
  (df.rows.filter (fun r =>
    decide ((val - val * tol ≤ r.high ∧ r.high ≤ val + val * tol) ∨
            (val - val * tol ≤ r.low ∧ r.low ≤ val + val * tol)))).length

/-- Keys of a python dict built by repeated assignment: first occurrence order,
duplicates removed (the assigned count depends only on the key, so the last-write
value equals the first). -/
def dedupKeys : List ℚ → List ℚ
  | [] => []
  | k :: ks => k :: (dedupKeys ks).filter (fun x => decide (x ≠ k))

/-- The filtered threshold dictionary (src/utils.py line 170): candidate prices
with at least 3 touches, in insertion order, paired with their counts. -/
def filteredThresholds (df : Df) (cutting : ℕ) (tol : ℚ) : List (ℚ × ℕ) :=
  ((dedupKeys (linspace (listMinD df.low) (listMaxD df.high) cutting)).map
      (fun v => (v, touchCount df v tol))).filter (fun kv => decide (3 ≤ kv.2))

/-- Python `max(candidates, key=lambda x: x[1])`: first element with maximal count. -/
def maxByCount (c : ℚ × ℕ) : List (ℚ × ℕ) → ℚ × ℕ
  | [] => c
  | d :: ds => if c.2 < d.2 then maxByCount d ds else maxByCount c ds

/-- Interval-sweep loop of `find_psychological_levels` (src/utils.py lines
174-183), with explicit fuel: python terminates exactly when `pas > 0`, and the
fuel chosen below suffices in that case. -/
def psychLoop (df : Df) (pas maxp : ℚ) : ℕ → ℚ → List (ℚ × ℕ) → List (ℚ × ℕ) → List (ℚ × ℕ)
  | 0, _, _, acc => acc
  | fuel + 1, start, filtered, acc =>
    if start ≤ maxp then
      let iEnd := start + pas
      let candidates := filtered.filter (fun kv => decide (start ≤ kv.1 ∧ kv.1 < iEnd))
      match candidates with
      | [] => psychLoop df pas maxp fuel iEnd filtered acc
      | c :: cs =>
        psychLoop df pas maxp fuel iEnd
          (filtered.filter (fun kv => decide (¬ (start ≤ kv.1 ∧ kv.1 < iEnd))))
          (acc ++ [maxByCount c cs])
    else acc

/-- Ceiling of a rational as an integer, computed from the normalised fraction. -/
def ratCeil (q : ℚ) : ℤ := (q.num + (q.den : ℤ) - 1) / (q.den : ℤ)

/-- Fuel spent on the interval sweep.  It is only consulted on the terminating
side of the divergence guard below: for `0 < pas` the source loop runs
`floor((max-min)/pas) + 1` times, which this bound dominates; for `pas ≤ 0` the
guard has already ruled out a running loop (the remaining case `max < min` exits
at the first guard test, which any fuel reproduces). -/
def psychFuel (minp maxp pas : ℚ) : ℕ :=
  if 0 < pas then (ratCeil ((maxp - minp) / pas)).toNat + 2 else 0

/-- Python stable descending insertion by count (`sorted(key=count, reverse=True)`
is stable; equal counts keep their earlier relative order). -/
def insertDesc (x : ℚ × ℕ) : List (ℚ × ℕ) → List (ℚ × ℕ)
  | [] => [x]
  | y :: ys => if y.2 < x.2 then x :: y :: ys else y :: insertDesc x ys

/-- Stable sort by descending count. -/
def sortDesc (l : List (ℚ × ℕ)) : List (ℚ × ℕ) := l.foldl (fun acc x => insertDesc x acc) []

/-- Embeds `find_psychological_levels` (src/utils.py lines 153-186).  The scale
`pas = sqrt(variance_high + variance_low)` is irrational over ℚ, so the embedding
receives it as an explicit parameter; theorems that depend on its value carry the
hypothesis `0 ≤ pas ∧ pas * pas = variance_total df`.  When `pas ≤ 0` while the
price range is nonempty — reachable with `pas = 0` on a constant-price series,
whose variances are exactly 0 — the source's interval loop never advances and the
python call does not terminate; that divergence is modelled as `none` (the df is
assumed nonempty per the input contract, as an empty df turns the source's
min/max/variance into NaN arithmetic instead). -/
def find_psychological_levels (df : Df) (nb_seuil cutting : ℕ) (tol pas : ℚ) :
    Option (List (ℚ × ℕ)) :=
  let minp := listMinD df.low
  let maxp := listMaxD df.high
  if pas ≤ 0 ∧ minp ≤ maxp then none
  else
    let selected := psychLoop df pas maxp (psychFuel minp maxp pas) minp
        (filteredThresholds df cutting tol) []
    some ((sortDesc selected).take nb_seuil)

/-- Plateau scan of scipy's local-maxima detector: advance `i_ahead` while inside
the interior and the value equals the candidate height. -/
def plateauEnd (x : List ℚ) (v : ℚ) (iMax : ℕ) : ℕ → ℕ → ℕ
  | 0, ia => ia
  | fuel + 1, ia =>
    if ia < iMax ∧ x.getD ia 0 = v then plateauEnd x v iMax fuel (ia + 1) else ia

/-- Embeds scipy `_local_maxima_1d` (the candidate peaks of `find_peaks`): a
sample strictly greater than its neighbours, with flat peaks reported at the
plateau midpoint.  The scan index `i` runs over the interior `1..i_max-1` and the
fuel dominates the number of iterations. -/
def localMaximaAux (x : List ℚ) (iMax : ℕ) : ℕ → ℕ → List ℕ
  | 0, _ => []
  | fuel + 1, i =>
    if i < iMax then
      if x.getD (i - 1) 0 < x.getD i 0 then
        let ia := plateauEnd x (x.getD i 0) iMax (fuel + 1) (i + 1)
        if x.getD ia 0 < x.getD i 0 then
          ((i + (ia - 1)) / 2) :: localMaximaAux x iMax fuel (ia + 1)
        else localMaximaAux x iMax fuel (i + 1)
      else localMaximaAux x iMax fuel (i + 1)
    else []

/-- Candidate local maxima of a series. -/
def localMaxima (x : List ℚ) : List ℕ := localMaximaAux x (x.length - 1) x.length 1

/-- Embeds scipy peak prominence (default window): scan outward from the peak in
both directions until a strictly higher sample or the boundary, take the minimum
of each scanned side, and subtract the larger of the two minima from the peak
height.  Always nonnegative, since each scan contains the peak itself. -/
def prominence (x : List ℚ) (p : ℕ) : ℚ :=
  let xp := x.getD p 0
  let leftScan := ((x.take (p + 1)).reverse).takeWhile (fun v => decide (v ≤ xp))
  let rightScan := (x.drop p).takeWhile (fun v => decide (v ≤ xp))
  xp - max (leftScan.foldl min xp) (rightScan.foldl min xp)

/-- Embeds `find_peaks(x, prominence=sqrt(V) * lr)`: candidate maxima whose
prominence reaches the threshold.  Because `sqrt V` is irrational over ℚ, the
comparison `sqrt V * lr ≤ prom` is encoded exactly by its square: for `lr ≤ 0`
the threshold is nonpositive and every candidate passes (prominence is
nonnegative); for `0 < lr` it is equivalent to `V * lr² ≤ prom²`. -/
def find_peaks_embed (x : List ℚ) (V lr : ℚ) : List ℕ :=
  (localMaxima x).filter (fun p =>
    decide (lr ≤ 0) || decide (V * lr * lr ≤ prominence x p * prominence x p))

/-- Accumulating loop of `score_resistance` (src/utils.py lines 195-202): running
score and touch count over the benchmark indices, with early rejection
(`-np.inf`, modelled as `none`) on a breakout. -/
def scoreResAux (resist data_ : List ℚ) (mtd : ℚ) : List ℕ → ℚ → ℕ → Option (ℚ × ℕ)
  | [], s, t => some (s, t)
  | i :: is, s, t =>
    let d := data_.getD i 0
    if d ≠ 0 then
      let r := resist.getD i 0
      let diff := d - r
      if r * (1 / 100) < diff then none
      else
        scoreResAux resist data_ mtd is (s + 1 / (1 + |diff|))
          (if |diff| ≤ mtd then t + 1 else t)
    else scoreResAux resist data_ mtd is s t

/-- Embeds `score_resistance` (src/utils.py lines 188-205); `none` is `-np.inf`. -/
def score_resistance (resist data_ : List ℚ) (mtd : ℚ) : Option ℚ :=
  match scoreResAux resist data_ mtd (List.range data_.length) 0 0 with
  | none => none
  | some st =>
    some (st.1 * (1 + (st.2 : ℚ) / (data_.length : ℚ)) * ((data_.length : ℚ)) ^ 2)

/-- Accumulating loop of `score_support` (src/utils.py lines 214-221). -/
def scoreSupAux (support data_ : List ℚ) (mtd : ℚ) : List ℕ → ℚ → ℕ → Option (ℚ × ℕ)
  | [], s, t => some (s, t)
  | i :: is, s, t =>
    let d := data_.getD i 0
    if d ≠ 0 then
      let r := support.getD i 0
      let diff := r - d
      if r * (1 / 100) < diff then none
      else
        scoreSupAux support data_ mtd is (s + 1 / (1 + |diff|))
          (if |diff| ≤ mtd then t + 1 else t)
    else scoreSupAux support data_ mtd is s t

/-- Embeds `score_support` (src/utils.py lines 207-224). -/
def score_support (support data_ : List ℚ) (mtd : ℚ) : Option ℚ :=
  match scoreSupAux support data_ mtd (List.range data_.length) 0 0 with
  | none => none
  | some st =>
    some (st.1 * (1 + (st.2 : ℚ) / (data_.length : ℚ)) * ((data_.length : ℚ)) ^ 2)

/-- Python `range(first, last + 1)` as a list. -/
def rangeIncl (first last : ℕ) : List ℕ := (List.range (last + 1)).drop first

/-- The benchmark array of `test_resistance_glob` / `test_support_glob`: zeros
except at the bar indices of peaks `first..last`, which carry the column value. -/
def benchArray (n : ℕ) (col : List ℚ) (peaks : List ℕ) (first last : ℕ) : List ℚ :=
  (List.range n).map (fun idx =>
    if (rangeIncl first last).any (fun k => peaks.getD k 0 == idx) then col.getD idx 0
    else 0)

/-- Scoring mode of `test_resistance_glob` (src/utils.py lines 226-240,
`find=None`): build the candidate line array and benchmark, slice both to
`[start : end+1]` and score. -/
def test_resistance_glob_score (y1 : ℚ) (start : ℕ) (y2 : ℚ) (endI : ℕ) (df : Df)
    (peaks : List ℕ) (first last : ℕ) : Option ℚ :=
  let ab := calc_line_params (start : ℚ) y1 (endI : ℚ) y2
  let resistance_glob := lineArray df.n start endI ab.1 ab.2
  let benchmark := benchArray df.n df.high peaks first last
  score_resistance (slicePy resistance_glob start (endI + 1))
    (slicePy benchmark start (endI + 1)) (1 / 1000)

/-- Find mode of `test_resistance_glob` (`find` set): return the line array. -/
def test_resistance_glob_find (y1 : ℚ) (start : ℕ) (y2 : ℚ) (endI : ℕ) (n : ℕ) :
    List ℚ :=
  let ab := calc_line_params (start : ℚ) y1 (endI : ℚ) y2
  lineArray n start endI ab.1 ab.2

/-- Scoring mode of `test_support_glob` (src/utils.py lines 242-256). -/
def test_support_glob_score (y1 : ℚ) (start : ℕ) (y2 : ℚ) (endI : ℕ) (df : Df)
    (peaks : List ℕ) (first last : ℕ) : Option ℚ :=
  let ab := calc_line_params (start : ℚ) y1 (endI : ℚ) y2
  let support_glob := lineArray df.n start endI ab.1 ab.2
  let benchmark := benchArray df.n df.low peaks first last
  score_support (slicePy support_glob start (endI + 1))
    (slicePy benchmark start (endI + 1)) (1 / 1000)

/-- Find mode of `test_support_glob`. -/
def test_support_glob_find (y1 : ℚ) (start : ℕ) (y2 : ℚ) (endI : ℕ) (n : ℕ) :
    List ℚ :=
  let ab := calc_line_params (start : ℚ) y1 (endI : ℚ) y2
  lineArray n start endI ab.1 ab.2

/-- Comparison `best["score"] < tmp` with `-np.inf` modelled as `none`. -/
def optLtB : Option ℚ → Option ℚ → Bool
  | _, none => false
  | none, some _ => true
  | some a, some b => a < b

/-- The ordered pair enumeration of `global_trend` (src/utils.py lines 276-277):
all index pairs `(i, j)` with `i < j`, ascending `i` then ascending `j`. -/
def pairIdx (len : ℕ) : List (ℕ × ℕ) :=
  (List.range len).flatMap (fun i => ((List.range len).drop (i + 1)).map (fun j => (i, j)))

/-- The best-so-far fold of `global_trend`: the score dictionary starts at
`(-inf, 0, 0)` and is replaced exactly when a pair scores strictly higher. -/
def foldBestPair (sc : ℕ × ℕ → Option ℚ) (pk : ℕ → ℕ) (prs : List (ℕ × ℕ)) :
    Option ℚ × ℕ × ℕ :=
  prs.foldl (fun acc p => if optLtB acc.1 (sc p) then (sc p, pk p.1, pk p.2) else acc)
    (none, 0, 0)

/-- Score of the resistance pair with peak-list indices `(i, j)` as evaluated by
`global_trend` (src/utils.py lines 278-280). -/
def resPairScore (df : Df) (peaks : List ℕ) (p : ℕ × ℕ) : Option ℚ :=
  test_resistance_glob_score (df.highD (peaks.getD p.1 0)) (peaks.getD p.1 0)
    (df.highD (peaks.getD p.2 0)) (peaks.getD p.2 0) df peaks p.1 p.2

/-- Score of the support pair with peak-list indices `(i, j)` (lines 288-290). -/
def supPairScore (df : Df) (peaks : List ℕ) (p : ℕ × ℕ) : Option ℚ :=
  test_support_glob_score (df.lowD (peaks.getD p.1 0)) (peaks.getD p.1 0)
    (df.lowD (peaks.getD p.2 0)) (peaks.getD p.2 0) df peaks p.1 p.2

/-- The High peaks of `global_trend`. -/
def maxPeaksOf (df : Df) (lr : ℚ) : List ℕ :=
  find_peaks_embed df.high (variance_total df) lr

/-- The Low troughs of `global_trend` (peaks of the negated Low column). -/
def minPeaksOf (df : Df) (lr : ℚ) : List ℕ :=
  find_peaks_embed (df.low.map (fun q => -q)) (variance_total df) lr

/-- The winning resistance tracker `(score, First_peak, Last_peak)` of `global_trend`. -/
def bestResOf (df : Df) (lr : ℚ) : Option ℚ × ℕ × ℕ :=
  let peaks := maxPeaksOf df lr
  foldBestPair (resPairScore df peaks) (fun i => peaks.getD i 0) (pairIdx peaks.length)

/-- The winning support tracker of `global_trend`. -/
def bestSupOf (df : Df) (lr : ℚ) : Option ℚ × ℕ × ℕ :=
  let peaks := minPeaksOf df lr
  foldBestPair (supPairScore df peaks) (fun i => peaks.getD i 0) (pairIdx peaks.length)

/-- Embeds `global_trend` (src/utils.py lines 258-308): detect peaks, require at
least two on each side, run the pairwise searches and return the two line arrays
built from the winning trackers, plus the High peak list. -/
def global_trend (df : Df) (lr : ℚ) : Except String (List ℚ × List ℚ × List ℕ) :=
  let max_peaks := maxPeaksOf df lr
  let min_peaks := minPeaksOf df lr
  if max_peaks.length < 2 then .error msgPeaksResistance
  else if min_peaks.length < 2 then .error msgPeaksSupport
  else
    let bestR := bestResOf df lr
    let bestS := bestSupOf df lr
    .ok (test_resistance_glob_find (df.highD bestR.2.1) bestR.2.1 (df.highD bestR.2.2)
           bestR.2.2 df.n,
         test_support_glob_find (df.lowD bestS.2.1) bestS.2.1 (df.lowD bestS.2.2)
           bestS.2.2 df.n,
         max_peaks)

/-- Maximum of two optional scores, keeping the first on ties (`-inf` = `none`). -/
def omax (a b : Option ℚ) : Option ℚ := if optLtB a b then b else a

/-- Maximum score over a pair list (`none` when the list is empty or all scores
are `-inf`). -/
def maxScoreL (sc : ℕ × ℕ → Option ℚ) : List (ℕ × ℕ) → Option ℚ
  | [] => none
  | p :: ps => omax (sc p) (maxScoreL sc ps)

/-- Modelled from the spec wording of the pair score, for comparison against the
source: identical to `score_resistance` except that the final weights use `n` =
the number of nonzero benchmark points in range, as the spec reads, instead of
the sliced array length used by the code. -/
def specScoreResistance (resist data_ : List ℚ) (mtd : ℚ) : Option ℚ :=
  match scoreResAux resist data_ mtd (List.range data_.length) 0 0 with
  | none => none
  | some st =>
    let nb := ((List.range data_.length).filter
        (fun i => decide (data_.getD i 0 ≠ 0))).length
    some (st.1 * (1 + (st.2 : ℚ) / (nb : ℚ)) * ((nb : ℚ)) ^ 2)

/-- The spec-worded pair score at the `test_resistance_glob` call shape. -/
def specTestResistanceGlobScore (y1 : ℚ) (start : ℕ) (y2 : ℚ) (endI : ℕ) (df : Df)
    (peaks : List ℕ) (first last : ℕ) : Option ℚ :=
  let ab := calc_line_params (start : ℚ) y1 (endI : ℚ) y2
  let resistance_glob := lineArray df.n start endI ab.1 ab.2
  let benchmark := benchArray df.n df.high peaks first last
  specScoreResistance (slicePy resistance_glob start (endI + 1))
    (slicePy benchmark start (endI + 1)) (1 / 1000)

/-- Concrete all-negative dataframe: both columns have two prominent interior
peaks, yet every candidate pair is rejected by the breakout check because the
tolerance band `line_value * tol` is negative at negative prices. -/
def dfNeg : Df := ⟨[⟨0, -10, -11⟩, ⟨0, -1, -20⟩, ⟨0, -10, -11⟩, ⟨0, -1, -20⟩, ⟨0, -10, -11⟩]⟩

/-- Concrete positive dataframe with High peaks at bars 1 and 3. -/
def dfPos : Df := ⟨[⟨0, 1, 0⟩, ⟨0, 10, 0⟩, ⟨0, 1, 0⟩, ⟨0, 10, 0⟩, ⟨0, 1, 0⟩]⟩

/-- Concrete two-bar dataframe. -/
def dfTwo : Df := ⟨[⟨0, 10, 9⟩, ⟨1, 11, 10⟩]⟩

/-- Concrete four-bar dataframe with two periods, used for the projection claims. -/
def dfFour : Df := ⟨[⟨0, 5, 1⟩, ⟨0, 6, 2⟩, ⟨1, 7, 3⟩, ⟨1, 8, 4⟩]⟩

/-- Concrete windowed maxima series (periode label, value) over `dfFour`. -/
def nmFour : List (ℚ × ℚ) := [(0, 6), (1, 8)]

/-- Concrete windowed minima series over `dfFour`. -/
def nnFour : List (ℚ × ℚ) := [(0, 1), (1, 3)]

/-- Slope and intercept of the candidate line of the local fitters: through
`(i, ms[i])` and `(len-1, ms[len-1])`. -/
def anchorLine (ms : List ℚ) (i : ℕ) : ℚ × ℚ :=
  calc_line_params (i : ℚ) (ms.getD i 0) ((ms.length - 1 : ℕ) : ℚ) (ms.getD (ms.length - 1) 0)

lemma lineArray_length (n x0 x1 : ℕ) (a b : ℚ) : (lineArray n x0 x1 a b).length = n := by
  simp [lineArray]

lemma lineArray_getD_inside {n x0 x1 x : ℕ} (a b : ℚ) (h0 : x0 ≤ x) (h1 : x ≤ x1)
    (hn : x < n) : (lineArray n x0 x1 a b).getD x 0 = a * (x : ℚ) + b := by
  simp [lineArray, List.getD_eq_getElem?_getD, List.getElem?_map, List.getElem?_range, hn,
    h0, h1]

lemma lineArray_getD_outside {n x0 x1 x : ℕ} (a b : ℚ) (h : x < x0 ∨ x1 < x)
    (hn : x < n) : (lineArray n x0 x1 a b).getD x 0 = 0 := by
  have hne : ¬ (x0 ≤ x ∧ x ≤ x1) := by omega
  simp [lineArray, List.getD_eq_getElem?_getD, List.getElem?_map, List.getElem?_range, hn,
    hne]

/-- C7: for any two points, `calc_line_params` returns the slope
`(y2-y1)/(x2-x1)` and a line of signed distance 0 at both anchors when
`x1 ≠ x2`; for degenerate equal-x input it returns slope 0 (and does not raise:
the function is total). -/
theorem calc_line_params_exact (x1 y1 x2 y2 : ℚ) :
    (x1 ≠ x2 →
      (calc_line_params x1 y1 x2 y2).1 = (y2 - y1) / (x2 - x1) ∧
      distance_to_line (calc_line_params x1 y1 x2 y2).1 (calc_line_params x1 y1 x2 y2).2
        x1 y1 = 0 ∧
      distance_to_line (calc_line_params x1 y1 x2 y2).1 (calc_line_params x1 y1 x2 y2).2
        x2 y2 = 0) ∧
    (x1 = x2 → (calc_line_params x1 y1 x2 y2).1 = 0) := by
  constructor
  · intro h
    have h2 : x2 ≠ x1 := fun e => h e.symm
    have hs : x2 - x1 ≠ 0 := sub_ne_zero.mpr h2
    refine ⟨by simp [calc_line_params, h2], by simp [calc_line_params, distance_to_line]; try ring, ?_⟩
    simp only [calc_line_params, distance_to_line, if_pos h2]
    field_simp
    ring
  · intro h
    simp [calc_line_params, h]

/-- Witness for C7 at the points (0, 1) and (2, 5). -/
theorem calc_line_params_exact_witness :
    (calc_line_params 0 1 2 5).1 = (5 - 1) / (2 - 0) ∧
    distance_to_line (calc_line_params 0 1 2 5).1 (calc_line_params 0 1 2 5).2 0 1 = 0 ∧
    distance_to_line (calc_line_params 0 1 2 5).1 (calc_line_params 0 1 2 5).2 2 5 = 0 :=
  (calc_line_params_exact 0 1 2 5).1 (by norm_num)

/-- C10: both local fitters check the minimum-length precondition on the raw
series before NaN removal, so a series of raw length at least 2 with fewer than 2
non-NaN entries passes the check and then fails with the no-valid-line error of
the anchor loop (the anchor range is empty, so no point is ever accessed), never
with the two-points error. -/
theorem fit_length_check_counts_nan (s : List (Option ℚ)) (tol : ℚ)
    (h2 : 2 ≤ s.length) (h1 : (dropna s).length < 2) :
    fit_resistance_from_maxima s tol = .error msgNoResistance ∧
    fit_support_from_minimum s tol = .error msgNoSupport := by
  have hlen : ¬ s.length < 2 := by omega
  have hr : (dropna s).length - 2 = 0 := by omega
  constructor
  · simp [fit_resistance_from_maxima, hlen, hr, fitResLoop]
  · simp [fit_support_from_minimum, hlen, hr, fitSupLoop]

/-- Witness for C10: a two-entry series with a single non-NaN value. -/
theorem fit_length_check_counts_nan_witness :
    fit_resistance_from_maxima [some 1, none] (1 / 100) = .error msgNoResistance ∧
    fit_support_from_minimum [some 1, none] (1 / 100) = .error msgNoSupport :=
  fit_length_check_counts_nan [some 1, none] (1 / 100) (by norm_num)
    (by norm_num [dropna, List.filterMap_cons])

/-- C4: on a series of exactly 2 bars the local fitters pass the length guard but
their anchor loop `range(len - 2)` is empty, so they raise the no-valid-line
error instead of fitting the two-point line (the code slip behind the claim);
the global search correctly fails with the not-enough-peaks error, since a
2-bar series has no interior local maximum. -/
theorem two_bar_series_behavior :
    fit_resistance_from_maxima [some 1, some 2] (1 / 100) = .error msgNoResistance ∧
    fit_support_from_minimum [some 1, some 2] (1 / 100) = .error msgNoSupport ∧
    global_trend dfTwo (3 / 20) = .error msgPeaksResistance := by
  refine ⟨?_, ?_, ?_⟩
  · norm_num [fit_resistance_from_maxima, fitResLoop, dropna, List.filterMap_cons]
  · norm_num [fit_support_from_minimum, fitSupLoop, dropna, List.filterMap_cons]
  · norm_num [global_trend, maxPeaksOf, minPeaksOf, find_peaks_embed, localMaxima,
      localMaximaAux, plateauEnd, Df.high, Df.low, Df.n, dfTwo]

lemma checkResLoop_cons_skip {y : List ℚ} {tol a b : ℚ} {x1 x2 j : ℕ} {js : List ℕ}
    (hj : j = x1 ∨ j = x2) :
    checkResLoop y tol a b x1 x2 (j :: js) = checkResLoop y tol a b x1 x2 js := by
  simp [checkResLoop, hj]

lemma checkResLoop_cons_break {y : List ℚ} {tol a b : ℚ} {x1 x2 j : ℕ} {js : List ℕ}
    (hj1 : j ≠ x1) (hj2 : j ≠ x2)
    (hbr : (a * (j : ℚ) + b) * tol < y.getD j 0 - (a * (j : ℚ) + b)) :
    checkResLoop y tol a b x1 x2 (j :: js) = none := by
  have hj : ¬ (j = x1 ∨ j = x2) := by tauto
  simp only [checkResLoop]
  rw [if_neg hj, if_pos hbr]

lemma checkResLoop_cons_pass {y : List ℚ} {tol a b : ℚ} {x1 x2 j : ℕ} {js : List ℕ}
    (hj1 : j ≠ x1) (hj2 : j ≠ x2)
    (hbr : ¬ (a * (j : ℚ) + b) * tol < y.getD j 0 - (a * (j : ℚ) + b)) :
    checkResLoop y tol a b x1 x2 (j :: js) = checkResLoop y tol a b x1 x2 js := by
  have hj : ¬ (j = x1 ∨ j = x2) := by tauto
  simp only [checkResLoop]
  rw [if_neg hj, if_neg hbr]

lemma checkResLoop_some_eq {y : List ℚ} {tol a b : ℚ} {x1 x2 : ℕ} {js : List ℕ}
    {ab : ℚ × ℚ} (h : checkResLoop y tol a b x1 x2 js = some ab) : ab = (a, b) := by
  induction js with
  | nil => simpa [checkResLoop] using h.symm
  | cons j js ih =>
    by_cases hj : j = x1 ∨ j = x2
    · rw [checkResLoop_cons_skip hj] at h
      exact ih h
    · push_neg at hj
      by_cases hbr : (a * (j : ℚ) + b) * tol < y.getD j 0 - (a * (j : ℚ) + b)
      · rw [checkResLoop_cons_break hj.1 hj.2 hbr] at h
        exact absurd h (by simp)
      · rw [checkResLoop_cons_pass hj.1 hj.2 hbr] at h
        exact ih h

lemma checkResLoop_eq_some_iff {y : List ℚ} {tol a b : ℚ} {x1 x2 : ℕ} {js : List ℕ} :
    checkResLoop y tol a b x1 x2 js = some (a, b) ↔
      ∀ j ∈ js, j ≠ x1 → j ≠ x2 →
        y.getD j 0 - (a * (j : ℚ) + b) ≤ (a * (j : ℚ) + b) * tol := by
  induction js with
  | nil => simp [checkResLoop]
  | cons j js ih =>
    rw [List.forall_mem_cons]
    by_cases hj : j = x1 ∨ j = x2
    · rw [checkResLoop_cons_skip hj, ih]
      constructor
      · intro h
        refine ⟨?_, h⟩
        rcases hj with rfl | rfl
        · exact fun hc => absurd rfl hc
        · exact fun _ hc => absurd rfl hc
      · exact And.right
    · push_neg at hj
      by_cases hbr : (a * (j : ℚ) + b) * tol < y.getD j 0 - (a * (j : ℚ) + b)
      · rw [checkResLoop_cons_break hj.1 hj.2 hbr]
        constructor
        · intro h; exact absurd h (by simp)
        · intro h
          exact ((not_le.mpr hbr) (h.1 hj.1 hj.2)).elim
      · rw [checkResLoop_cons_pass hj.1 hj.2 hbr, ih]
        constructor
        · intro h; exact ⟨fun _ _ => not_lt.mp hbr, h⟩
        · exact And.right

lemma check_fit_resistance_eq_checkResLoop {y : List ℚ} {tol : ℚ} {x1 x2 : ℕ}
    {a b : ℚ} (hab : calc_line_params (x1 : ℚ) (y.getD x1 0) (x2 : ℚ) (y.getD x2 0) = (a, b)) :
    check_fit_resistance y tol x1 x2 = checkResLoop y tol a b x1 x2 (List.range y.length) := by
  simp only [check_fit_resistance, hab]

lemma check_fit_resistance_isSome_iff {y : List ℚ} {tol : ℚ} {x1 x2 : ℕ} {a b : ℚ}
    (hab : calc_line_params (x1 : ℚ) (y.getD x1 0) (x2 : ℚ) (y.getD x2 0) = (a, b)) :
    (check_fit_resistance y tol x1 x2).isSome = true ↔
      ∀ j < y.length, j ≠ x1 → j ≠ x2 →
        y.getD j 0 - (a * (j : ℚ) + b) ≤ (a * (j : ℚ) + b) * tol := by
  rw [check_fit_resistance_eq_checkResLoop hab]
  constructor
  · intro h
    rw [Option.isSome_iff_exists] at h
    obtain ⟨ab, habb⟩ := h
    have he := checkResLoop_some_eq habb
    subst he
    intro j hj
    exact checkResLoop_eq_some_iff.mp habb j (List.mem_range.mpr hj)
  · intro h
    have hc : checkResLoop y tol a b x1 x2 (List.range y.length) = some (a, b) :=
      checkResLoop_eq_some_iff.mpr (fun j hj => h j (List.mem_range.mp hj))
    simp [hc]

lemma check_fit_resistance_some_eq {y : List ℚ} {tol : ℚ} {x1 x2 : ℕ} {ab : ℚ × ℚ}
    (h : check_fit_resistance y tol x1 x2 = some ab) :
    ab = calc_line_params (x1 : ℚ) (y.getD x1 0) (x2 : ℚ) (y.getD x2 0) := by
  rw [check_fit_resistance_eq_checkResLoop rfl] at h
  exact checkResLoop_some_eq h

lemma fitResLoop_eq_find (ms : List ℚ) (tol : ℚ) (js : List ℕ) :
    fitResLoop ms tol js =
      match js.find? (fun s => (check_fit_resistance ms tol s (ms.length - 1)).isSome) with
      | some i => .ok ((anchorLine ms i).1, (anchorLine ms i).2,
          slicePy ms i ((ms.length - 1) + 1))
      | none => .error msgNoResistance := by
  induction js with
  | nil => simp [fitResLoop]
  | cons s ss ih =>
    rcases h : check_fit_resistance ms tol s (ms.length - 1) with _ | ab
    · rw [List.find?_cons_of_neg _ (by simp [h])]
      simp only [fitResLoop, h]
      exact ih
    · rw [List.find?_cons_of_pos _ (by simp [h])]
      have hab := check_fit_resistance_some_eq h
      subst hab
      simp only [fitResLoop, h, anchorLine]

/-- C2: for a series passing the raw length check whose NaN-free values have
length at least 3, the resistance fitter scans left anchors `0..len-3` in
ascending order; an anchor is accepted exactly when every other point `j` lies at
most `tolerance * line_value(j)` above its line through `(i, y[i])` and
`(len-1, y[len-1])` (points inside the band merely count as touches, which are
not returned); the first accepted anchor yields `(slope, intercept, spanned
sub-series)`, and if no anchor is accepted the fitter fails with the
no-valid-line error. -/
theorem fit_resistance_first_valid_anchor (s : List (Option ℚ)) (tol : ℚ)
    (h2 : 2 ≤ s.length) (h3 : 3 ≤ (dropna s).length) :
    (∀ i, (List.range ((dropna s).length - 2)).find? (fun i =>
        decide (∀ j < (dropna s).length, j ≠ i → j ≠ (dropna s).length - 1 →
          (dropna s).getD j 0 - ((anchorLine (dropna s) i).1 * (j : ℚ)
              + (anchorLine (dropna s) i).2)
            ≤ ((anchorLine (dropna s) i).1 * (j : ℚ) + (anchorLine (dropna s) i).2) * tol))
        = some i →
      fit_resistance_from_maxima s tol =
        .ok ((anchorLine (dropna s) i).1, (anchorLine (dropna s) i).2,
          slicePy (dropna s) i (((dropna s).length - 1) + 1))) ∧
    ((List.range ((dropna s).length - 2)).find? (fun i =>
        decide (∀ j < (dropna s).length, j ≠ i → j ≠ (dropna s).length - 1 →
          (dropna s).getD j 0 - ((anchorLine (dropna s) i).1 * (j : ℚ)
              + (anchorLine (dropna s) i).2)
            ≤ ((anchorLine (dropna s) i).1 * (j : ℚ) + (anchorLine (dropna s) i).2) * tol))
        = none →
      fit_resistance_from_maxima s tol = .error msgNoResistance) := by
  have hlen : ¬ s.length < 2 := by omega
  have hunfold : fit_resistance_from_maxima s tol
      = fitResLoop (dropna s) tol (List.range ((dropna s).length - 2)) := by
    simp [fit_resistance_from_maxima, hlen]
  have hpred : (fun i => (check_fit_resistance (dropna s) tol i
        ((dropna s).length - 1)).isSome)
      = (fun i => decide (∀ j < (dropna s).length, j ≠ i → j ≠ (dropna s).length - 1 →
          (dropna s).getD j 0 - ((anchorLine (dropna s) i).1 * (j : ℚ)
              + (anchorLine (dropna s) i).2)
            ≤ ((anchorLine (dropna s) i).1 * (j : ℚ) + (anchorLine (dropna s) i).2) * tol)) := by
    funext i
    rw [Bool.eq_iff_iff, decide_eq_true_eq]
    exact check_fit_resistance_isSome_iff rfl
  constructor
  · intro i hfind
    rw [hunfold, fitResLoop_eq_find, hpred, hfind]
  · intro hfind
    rw [hunfold, fitResLoop_eq_find, hpred, hfind]

/-- Witness for C2: on the series `[1, 1, 1]` the first anchor is accepted and
the horizontal line through the endpoints is returned. -/
theorem fit_resistance_first_valid_anchor_witness :
    fit_resistance_from_maxima [some 1, some 1, some 1] (1 / 100) = .ok (0, 1, [1, 1, 1]) := by
  have hd : dropna [some 1, some 1, some 1] = [1, 1, 1] := by
    norm_num [dropna, List.filterMap_cons]
  have hfind : (List.range ((dropna [some 1, some 1, some 1]).length - 2)).find? (fun i =>
      decide (∀ j < (dropna [some 1, some 1, some 1]).length, j ≠ i →
        j ≠ (dropna [some 1, some 1, some 1]).length - 1 →
        (dropna [some 1, some 1, some 1]).getD j 0
            - ((anchorLine (dropna [some 1, some 1, some 1]) i).1 * (j : ℚ)
              + (anchorLine (dropna [some 1, some 1, some 1]) i).2)
          ≤ ((anchorLine (dropna [some 1, some 1, some 1]) i).1 * (j : ℚ)
              + (anchorLine (dropna [some 1, some 1, some 1]) i).2) * (1 / 100)))
      = some 0 := by
    rw [hd]
    rw [show List.range (([1, 1, 1] : List ℚ).length - 2) = [0] from rfl]
    rw [List.find?_cons_of_pos]
    apply decide_eq_true
    intro j hj hj0 hj2
    have hj3 : j < 3 := by simpa using hj
    interval_cases j
    · exact absurd rfl hj0
    · norm_num [anchorLine, calc_line_params, List.getD]
    · exact absurd rfl hj2
  have h := (fit_resistance_first_valid_anchor [some 1, some 1, some 1] (1 / 100)
      (by norm_num) (by rw [hd]; norm_num)).1 0 hfind
  refine h.trans ?_
  rw [hd]
  norm_num [anchorLine, calc_line_params, slicePy, List.getD]

lemma checkSupLoop_cons_skip {y : List ℚ} {tol a b : ℚ} {x1 x2 j : ℕ} {js : List ℕ}
    (hj : j = x1 ∨ j = x2) :
    checkSupLoop y tol a b x1 x2 (j :: js) = checkSupLoop y tol a b x1 x2 js := by
  simp [checkSupLoop, hj]

lemma checkSupLoop_cons_break {y : List ℚ} {tol a b : ℚ} {x1 x2 j : ℕ} {js : List ℕ}
    (hj1 : j ≠ x1) (hj2 : j ≠ x2)
    (hbr : y.getD j 0 - (a * (j : ℚ) + b) < -|(a * (j : ℚ) + b) * tol|) :
    checkSupLoop y tol a b x1 x2 (j :: js) = none := by
  have hj : ¬ (j = x1 ∨ j = x2) := by tauto
  simp only [checkSupLoop]
  rw [if_neg hj, if_pos hbr]

lemma checkSupLoop_cons_pass {y : List ℚ} {tol a b : ℚ} {x1 x2 j : ℕ} {js : List ℕ}
    (hj1 : j ≠ x1) (hj2 : j ≠ x2)
    (hbr : ¬ y.getD j 0 - (a * (j : ℚ) + b) < -|(a * (j : ℚ) + b) * tol|) :
    checkSupLoop y tol a b x1 x2 (j :: js) = checkSupLoop y tol a b x1 x2 js := by
  have hj : ¬ (j = x1 ∨ j = x2) := by tauto
  simp only [checkSupLoop]
  rw [if_neg hj, if_neg hbr]

lemma checkSupLoop_some_eq {y : List ℚ} {tol a b : ℚ} {x1 x2 : ℕ} {js : List ℕ}
    {ab : ℚ × ℚ} (h : checkSupLoop y tol a b x1 x2 js = some ab) : ab = (a, b) := by
  induction js with
  | nil => simpa [checkSupLoop] using h.symm
  | cons j js ih =>
    by_cases hj : j = x1 ∨ j = x2
    · rw [checkSupLoop_cons_skip hj] at h
      exact ih h
    · push_neg at hj
      by_cases hbr : y.getD j 0 - (a * (j : ℚ) + b) < -|(a * (j : ℚ) + b) * tol|
      · rw [checkSupLoop_cons_break hj.1 hj.2 hbr] at h
        exact absurd h (by simp)
      · rw [checkSupLoop_cons_pass hj.1 hj.2 hbr] at h
        exact ih h

lemma checkSupLoop_eq_some_iff {y : List ℚ} {tol a b : ℚ} {x1 x2 : ℕ} {js : List ℕ} :
    checkSupLoop y tol a b x1 x2 js = some (a, b) ↔
      ∀ j ∈ js, j ≠ x1 → j ≠ x2 →
        -|(a * (j : ℚ) + b) * tol| ≤ y.getD j 0 - (a * (j : ℚ) + b) := by
  induction js with
  | nil => simp [checkSupLoop]
  | cons j js ih =>
    rw [List.forall_mem_cons]
    by_cases hj : j = x1 ∨ j = x2
    · rw [checkSupLoop_cons_skip hj, ih]
      constructor
      · intro h
        refine ⟨?_, h⟩
        rcases hj with rfl | rfl
        · exact fun hc => absurd rfl hc
        · exact fun _ hc => absurd rfl hc
      · exact And.right
    · push_neg at hj
      by_cases hbr : y.getD j 0 - (a * (j : ℚ) + b) < -|(a * (j : ℚ) + b) * tol|
      · rw [checkSupLoop_cons_break hj.1 hj.2 hbr]
        constructor
        · intro h; exact absurd h (by simp)
        · intro h
          exact ((not_le.mpr hbr) (h.1 hj.1 hj.2)).elim
      · rw [checkSupLoop_cons_pass hj.1 hj.2 hbr, ih]
        constructor
        · intro h; exact ⟨fun _ _ => not_lt.mp hbr, h⟩
        · exact And.right

lemma check_fit_support_eq_checkSupLoop (y : List ℚ) (tol : ℚ) (x1 x2 : ℕ) :
    check_fit_support y tol x1 x2 = checkSupLoop y tol
      (calc_line_params (x1 : ℚ) (y.getD x1 0) (x2 : ℚ) (y.getD x2 0)).1
      (calc_line_params (x1 : ℚ) (y.getD x1 0) (x2 : ℚ) (y.getD x2 0)).2
      x1 x2 (List.range y.length) := rfl

/-- C6 (amended): `check_fit_support` accepts a candidate exactly when no other
point lies below the line by more than the absolute tolerance band
`|line_value * tolerance|`.  This is the resistance validation with the
inequality reversed and the band made symmetric by the absolute value; because
`check_fit_resistance` uses the signed band `line_value * tolerance`, the two
fitters are not exact sign-mirrors of each other on negated series. -/
theorem check_fit_support_reversed_abs_band (y : List ℚ) (tol : ℚ) (x1 x2 : ℕ) :
    check_fit_support y tol x1 x2 =
        some ((calc_line_params (x1 : ℚ) (y.getD x1 0) (x2 : ℚ) (y.getD x2 0)).1,
          (calc_line_params (x1 : ℚ) (y.getD x1 0) (x2 : ℚ) (y.getD x2 0)).2) ↔
      ∀ j < y.length, j ≠ x1 → j ≠ x2 →
        -|((calc_line_params (x1 : ℚ) (y.getD x1 0) (x2 : ℚ) (y.getD x2 0)).1 * (j : ℚ)
            + (calc_line_params (x1 : ℚ) (y.getD x1 0) (x2 : ℚ) (y.getD x2 0)).2) * tol|
          ≤ y.getD j 0 -
            ((calc_line_params (x1 : ℚ) (y.getD x1 0) (x2 : ℚ) (y.getD x2 0)).1 * (j : ℚ)
            + (calc_line_params (x1 : ℚ) (y.getD x1 0) (x2 : ℚ) (y.getD x2 0)).2) := by
  rw [check_fit_support_eq_checkSupLoop, checkSupLoop_eq_some_iff]
  constructor
  · intro h j hj
    exact h j (List.mem_range.mpr hj)
  · intro h j hj
    exact h j (List.mem_range.mp hj)

/-- Witness for C6: on `[10, 10, 10]` the support check accepts the anchor pair
`(0, 2)` with the horizontal line of height 10. -/
theorem check_fit_support_reversed_abs_band_witness :
    check_fit_support [10, 10, 10] (1 / 100) 0 2 = some (0, 10) := by
  have h := (check_fit_support_reversed_abs_band [10, 10, 10] (1 / 100) 0 2).mpr ?side
  case side =>
    intro j hj hj0 hj2
    have hj3 : j < 3 := by simpa using hj
    interval_cases j
    · exact absurd rfl hj0
    · norm_num [calc_line_params, List.getD]
    · exact absurd rfl hj2
  refine h.trans ?_
  norm_num [calc_line_params, List.getD]

/-- C6 (counterexample): `fit_support` accepts the flat series `[10, 10, 10]`,
but `fit_resistance` on the negated series (third conjunct: the input of the
second is exactly the pointwise negation of the first) rejects every anchor:
the two fitters do not accept or reject anchors identically under negation. -/
theorem support_not_resistance_mirror_counterexample :
    fit_support_from_minimum [some 10, some 10, some 10] (1 / 100) = .ok (0, 10, [10, 10, 10]) ∧
    fit_resistance_from_maxima [some (-10), some (-10), some (-10)] (1 / 100)
      = .error msgNoResistance ∧
    [some (-10), some (-10), some (-10)]
      = [some 10, some 10, some 10].map (fun o => o.map (fun q : ℚ => -q)) := by
  refine ⟨?_, ?_, by norm_num⟩
  · norm_num [fit_support_from_minimum, fitSupLoop, check_fit_support, checkSupLoop,
      dropna, List.filterMap_cons, calc_line_params, slicePy, List.range_succ, List.getD]
    rw [if_neg (not_lt.mpr (abs_nonneg _))]
  · norm_num [fit_resistance_from_maxima, fitResLoop, check_fit_resistance, checkResLoop,
      dropna, List.filterMap_cons, calc_line_params, List.range_succ, List.getD]

lemma diffList_length (m : List ℚ) : (diffList m).length = m.length := by
  cases m with
  | nil => simp [diffList]
  | cons a tl => simp [diffList]

lemma diffList_sgn0 (m : List ℚ) (hm : m ≠ []) : sgnAt (diffList m) 0 = none := by
  cases m with
  | nil => exact absurd rfl hm
  | cons a tl => simp [diffList, sgnAt, sgnOpt]

lemma countLoop_cons_le (d : List (Option ℚ)) (s : Option ℤ) (i j : ℕ) (js : List ℕ) :
    countLoop d s i (j :: js) ≤ 1 + countLoop d s i js := by
  simp only [countLoop]
  split_ifs <;> omega

lemma signEq_none (s : Option ℤ) : signEq none s = false := by
  cases s <;> rfl

lemma countLoop_singleton_last (d : List (Option ℚ)) (s : Option ℤ) (i j0 : ℕ)
    (hd0 : sgnAt d 0 = none) (hL : d.length = i + j0 + 1) :
    countLoop d s i [j0] = 0 := by
  have h1 : d.length - (1 + i + j0) = 0 := by omega
  have h2 : ¬ 2 + i + j0 ≤ d.length := by omega
  simp only [countLoop, h1]
  rw [hd0, signEq_none]
  simp [h2]

lemma countLoop_range'_bound (d : List (Option ℚ)) (s : Option ℤ) (i : ℕ)
    (hd0 : sgnAt d 0 = none) :
    ∀ k j0, 1 ≤ k → j0 + k = d.length - i → i < d.length →
      countLoop d s i (List.range' j0 k) ≤ k - 1 := by
  intro k
  induction k with
  | zero => intro j0 h; omega
  | succ k ih =>
    intro j0 _ hsum hi
    by_cases hk : k = 0
    · subst hk
      rw [List.range'_one]
      rw [countLoop_singleton_last d s i j0 hd0 (by omega)]
    · rw [List.range'_succ]
      have h1 := countLoop_cons_le d s i j0 (List.range' (j0 + 1) k)
      have h2 := ih (j0 + 1) (by omega) (by omega) hi
      omega

lemma countFor_le (d : List (Option ℚ)) (i : ℕ) (hd0 : sgnAt d 0 = none) :
    countFor d i ≤ d.length - i - 1 := by
  by_cases hi : i < d.length
  · have h := countLoop_range'_bound d (sgnAt d (d.length - i)) i hd0 (d.length - i) 0
      (by omega) (by omega) hi
    rw [countFor, List.range_eq_range']
    exact h
  · have h0 : d.length - i = 0 := by omega
    rw [countFor, h0]
    simp [countLoop]

lemma findTrendIndexLoop_spec (d : List (Option ℚ)) :
    ∀ js : List ℕ, js ≠ [] →
      (findTrendIndexLoop d js).1 ∈ js ∧
      (findTrendIndexLoop d js).2 = countFor d (findTrendIndexLoop d js).1 := by
  intro js
  induction js with
  | nil => intro h; exact absurd rfl h
  | cons i js ih =>
    intro _
    cases js with
    | nil => simp [findTrendIndexLoop]
    | cons j js2 =>
      by_cases hc : 2 ≤ countFor d i
      · simp [findTrendIndexLoop, hc]
      · have hrec := ih (by simp)
        simp only [findTrendIndexLoop, if_neg hc]
        exact ⟨List.mem_cons_of_mem _ hrec.1, hrec.2⟩

/-- C9: for a nonempty moving-average series, `find_trend` fails with the
insufficient-trend-length error exactly when the detected frame is below 2;
otherwise the frame fits inside the window (`frame ≤ index`, so the python slice
start `index - frame` is nonnegative) and the three series are returned
restricted to positions `index - frame .. index` together with `frame` and
`index`. -/
theorem find_trend_window_spec (m mx mn : List ℚ) (hm : m ≠ []) :
    ((find_trend_index (diffList m)).2 < 2 →
      find_trend m mx mn = .error msgTrendLength) ∧
    (2 ≤ (find_trend_index (diffList m)).2 →
      (find_trend_index (diffList m)).2 ≤ (find_trend_index (diffList m)).1 ∧
      find_trend m mx mn = .ok
        (slicePy m
            ((find_trend_index (diffList m)).1 - (find_trend_index (diffList m)).2)
            ((find_trend_index (diffList m)).1 + 1),
          slicePy mx
            ((find_trend_index (diffList m)).1 - (find_trend_index (diffList m)).2)
            ((find_trend_index (diffList m)).1 + 1),
          slicePy mn
            ((find_trend_index (diffList m)).1 - (find_trend_index (diffList m)).2)
            ((find_trend_index (diffList m)).1 + 1),
          (find_trend_index (diffList m)).2, (find_trend_index (diffList m)).1)) := by
  constructor
  · intro h
    simp [find_trend, h]
  · intro h2
    have hL : 1 ≤ (diffList m).length := by
      rw [diffList_length]
      cases m with
      | nil => exact absurd rfl hm
      | cons a tl => simp
    have hloop := findTrendIndexLoop_spec (diffList m) (List.range' 1 (diffList m).length)
      (by cases h : List.range' 1 (diffList m).length with
          | nil => rw [List.range'_eq_nil] at h; omega
          | cons x xs => simp)
    have hmem := hloop.1
    rw [List.mem_range'] at hmem
    have hcount := hloop.2
    have hbound := countFor_le (diffList m) (findTrendIndexLoop (diffList m)
      (List.range' 1 (diffList m).length)).1 (diffList_sgn0 m hm)
    have hfr : (find_trend_index (diffList m)).2
        = countFor (diffList m) (findTrendIndexLoop (diffList m)
            (List.range' 1 (diffList m).length)).1 + 1 := by
      rw [find_trend_index, ← hcount]
    have hidx : (find_trend_index (diffList m)).1
        = (diffList m).length - (findTrendIndexLoop (diffList m)
            (List.range' 1 (diffList m).length)).1 := by
      rw [find_trend_index]
    constructor
    · rw [hfr, hidx]
      omega
    · simp [find_trend, not_lt.mpr h2]

/-- Witness for C9 on the strictly increasing series `[1, 2, 3, 4]`: the trend
spans the whole window and all three series are returned in full. -/
theorem find_trend_window_spec_witness :
    find_trend [1, 2, 3, 4] [2, 3, 4, 5] [0, 1, 2, 3]
      = .ok ([1, 2, 3, 4], [2, 3, 4, 5], [0, 1, 2, 3], 3, 3) := by
  have hfr : 2 ≤ (find_trend_index (diffList [1, 2, 3, 4])).2 := by
    norm_num [find_trend_index, findTrendIndexLoop, countFor, countLoop, diffList, sgnAt,
      sgnOpt, signEq, qsign, List.range_succ, List.range', List.getD]
  have h := (find_trend_window_spec [1, 2, 3, 4] [2, 3, 4, 5] [0, 1, 2, 3] (by simp)).2 hfr
  refine h.2.trans ?_
  norm_num [find_trend_index, findTrendIndexLoop, countFor, countLoop, diffList, sgnAt,
    sgnOpt, signEq, qsign, slicePy, List.range_succ, List.range', List.getD]

lemma psychLoop_nil_filtered (df : Df) (pas maxp : ℚ) :
    ∀ (fuel : ℕ) (start : ℚ) (acc : List (ℚ × ℕ)),
      psychLoop df pas maxp fuel start [] acc = acc := by
  intro fuel
  induction fuel with
  | zero => intro start acc; rfl
  | succ f ih =>
    intro start acc
    by_cases h : start ≤ maxp
    · simp only [psychLoop, if_pos h, List.filter_nil]
      exact ih _ _
    · simp only [psychLoop, if_neg h]

lemma dedupKeys_subset : ∀ (l : List ℚ) (x : ℚ), x ∈ dedupKeys l → x ∈ l := by
  intro l
  induction l with
  | nil => intro x h; simpa [dedupKeys] using h
  | cons k ks ih =>
    intro x h
    rw [dedupKeys, List.mem_cons] at h
    rcases h with rfl | h
    · exact List.mem_cons_self _ _
    · exact List.mem_cons_of_mem _ (ih x (List.mem_of_mem_filter h))

/-- C5 (amended): whenever no sampled candidate price reaches the minimum touch
threshold of 3, `find_psychological_levels` never reports a `NoLevelsFound`
failure: whenever its interval sweep terminates — a positive interval width
`pas`, or a price range the loop guard rejects at once — it silently returns the
empty list; in the remaining case (`pas ≤ 0` with a nonempty price range,
reachable as `pas = 0` on a constant-price series) the source's loop itself
never terminates, which the embedding reports as `none`. -/
theorem find_psychological_levels_all_below_threshold (df : Df) (nb cutting : ℕ)
    (tol pas : ℚ)
    (h : ∀ v ∈ linspace (listMinD df.low) (listMaxD df.high) cutting,
        touchCount df v tol < 3) :
    find_psychological_levels df nb cutting tol pas =
      if pas ≤ 0 ∧ listMinD df.low ≤ listMaxD df.high then none else some [] := by
  by_cases hc : pas ≤ 0 ∧ listMinD df.low ≤ listMaxD df.high
  · rw [if_pos hc]
    simp only [find_psychological_levels]
    rw [if_pos hc]
  · rw [if_neg hc]
    have hf : filteredThresholds df cutting tol = [] := by
      rw [filteredThresholds, List.filter_eq_nil_iff]
      intro kv hkv
      obtain ⟨v, hv, rfl⟩ := List.mem_map.mp hkv
      have hvlin := dedupKeys_subset _ v hv
      simp only [decide_eq_true_eq]
      exact not_le.mpr (h v hvlin)
    simp only [find_psychological_levels, hf]
    rw [if_neg hc, psychLoop_nil_filtered]
    simp [sortDesc]

/-- Witness for C5: the two-bar dataframe with sampled candidates 9 and 11, each
touched once, and the terminating interval width 1. -/
theorem find_psychological_levels_all_below_threshold_witness :
    find_psychological_levels dfTwo 3 2 (1 / 1000) 1 = some [] := by
  have hcnt : ∀ v ∈ linspace (listMinD dfTwo.low) (listMaxD dfTwo.high) 2,
      touchCount dfTwo v (1 / 1000) < 3 := by
    intro v hv
    have hlin : linspace (listMinD dfTwo.low) (listMaxD dfTwo.high) 2 = [9, 11] := by
      norm_num [linspace, listMinD, listMaxD, Df.high, Df.low, dfTwo, List.range_succ]
    rw [hlin] at hv
    rcases List.mem_cons.mp hv with rfl | hv2
    · norm_num [touchCount, dfTwo]
    · rcases List.mem_cons.mp hv2 with rfl | hv3
      · norm_num [touchCount, dfTwo]
      · simp at hv3
  have h := find_psychological_levels_all_below_threshold dfTwo 3 2 (1 / 1000) 1 hcnt
  refine h.trans ?_
  rw [if_neg (fun hc => absurd hc.1 (by norm_num))]

/-- C5 (counterexample): on the two-bar dataframe every sampled candidate has
fewer than 3 touches, yet the detector returns the empty list silently instead
of failing; the final conjunct checks that the interval width 1 used here is
exactly the volatility scale `sqrt(variance_total)` of this input. -/
theorem find_psychological_levels_silent_empty_counterexample :
    (∀ v ∈ linspace (listMinD dfTwo.low) (listMaxD dfTwo.high) 2,
        touchCount dfTwo v (1 / 1000) < 3) ∧
    find_psychological_levels dfTwo 3 2 (1 / 1000) 1 = some [] ∧
    (1 : ℚ) * 1 = variance_total dfTwo ∧ (0 : ℚ) ≤ 1 := by
  refine ⟨?_, ?_, ?_, by norm_num⟩
  · intro v hv
    have hlin : linspace (listMinD dfTwo.low) (listMaxD dfTwo.high) 2 = [9, 11] := by
      norm_num [linspace, listMinD, listMaxD, Df.high, Df.low, dfTwo, List.range_succ]
    rw [hlin] at hv
    rcases List.mem_cons.mp hv with rfl | hv2
    · norm_num [touchCount, dfTwo]
    · rcases List.mem_cons.mp hv2 with rfl | hv3
      · norm_num [touchCount, dfTwo]
      · simp at hv3
  · norm_num [find_psychological_levels, psychLoop, psychFuel, ratCeil, filteredThresholds,
      dedupKeys, linspace, touchCount, listMinD, listMaxD, sortDesc, insertDesc, maxByCount,
      Df.high, Df.low, dfTwo, List.range_succ, List.getD]
  · norm_num [variance_total, sampleVar, listMean, Df.high, Df.low, dfTwo]

lemma findRowIdxAux_lt {p : Row → Bool} :
    ∀ (rs : List Row) (k i : ℕ), findRowIdxAux p rs k = some i → i < k + rs.length := by
  intro rs
  induction rs with
  | nil => intro k i h; simp [findRowIdxAux] at h
  | cons r rs ih =>
    intro k i h
    by_cases hp : p r
    · simp only [findRowIdxAux, if_pos hp, Option.some.injEq] at h
      subst h
      simp
    · simp only [findRowIdxAux, if_neg hp] at h
      have := ih (k + 1) i h
      simp only [List.length_cons]
      omega

lemma findRowIdx_lt {df : Df} {p : Row → ℚ} {t v : ℚ} {i : ℕ}
    (h : findRowIdx df p t v = some i) : i < df.n := by
  have := findRowIdxAux_lt df.rows 0 i h
  simpa [Df.n] using this

lemma lineArray_spec (n x0 x1 : ℕ) (a b : ℚ) (hx1 : x1 < n) :
    (lineArray n x0 x1 a b).length = n ∧
    (∀ x, x0 ≤ x → x ≤ x1 → (lineArray n x0 x1 a b).getD x 0 = a * (x : ℚ) + b) ∧
    (∀ x, x < n → (x < x0 ∨ x1 < x) → (lineArray n x0 x1 a b).getD x 0 = 0) := by
  refine ⟨lineArray_length n x0 x1 a b, ?_, ?_⟩
  · intro x h0 h1
    exact lineArray_getD_inside a b h0 h1 (by omega)
  · intro x hn hout
    exact lineArray_getD_outside a b hout hn

/-- C8: every line-segment array the engine produces — the local
resistance/support projections `define_resistance` / `define_support` and the
find-mode arrays of `test_resistance_glob` / `test_support_glob` — has one entry
per bar of the full series, equals `slope * x + intercept` at every index in
`[start, end]`, and is exactly zero at every index outside that range. -/
theorem line_segment_arrays_domain_restricted :
    (∀ (nm : List (ℚ × ℚ)) (df : Df) (r : List ℚ), define_resistance nm df = .ok r →
      ∃ x0 x1 a b, x0 < df.n ∧ x1 < df.n ∧ r.length = df.n ∧
        (∀ x, x0 ≤ x → x ≤ x1 → r.getD x 0 = a * (x : ℚ) + b) ∧
        (∀ x, x < df.n → (x < x0 ∨ x1 < x) → r.getD x 0 = 0)) ∧
    (∀ (nm : List (ℚ × ℚ)) (df : Df) (r : List ℚ), define_support nm df = .ok r →
      ∃ x0 x1 a b, x0 < df.n ∧ x1 < df.n ∧ r.length = df.n ∧
        (∀ x, x0 ≤ x → x ≤ x1 → r.getD x 0 = a * (x : ℚ) + b) ∧
        (∀ x, x < df.n → (x < x0 ∨ x1 < x) → r.getD x 0 = 0)) ∧
    (∀ (y1 y2 : ℚ) (s e n : ℕ), e < n →
      (test_resistance_glob_find y1 s y2 e n).length = n ∧
      (∀ x, s ≤ x → x ≤ e → (test_resistance_glob_find y1 s y2 e n).getD x 0 =
        (calc_line_params (s : ℚ) y1 (e : ℚ) y2).1 * (x : ℚ)
          + (calc_line_params (s : ℚ) y1 (e : ℚ) y2).2) ∧
      (∀ x, x < n → (x < s ∨ e < x) → (test_resistance_glob_find y1 s y2 e n).getD x 0 = 0)) ∧
    (∀ (y1 y2 : ℚ) (s e n : ℕ), e < n →
      (test_support_glob_find y1 s y2 e n).length = n ∧
      (∀ x, s ≤ x → x ≤ e → (test_support_glob_find y1 s y2 e n).getD x 0 =
        (calc_line_params (s : ℚ) y1 (e : ℚ) y2).1 * (x : ℚ)
          + (calc_line_params (s : ℚ) y1 (e : ℚ) y2).2) ∧
      (∀ x, x < n → (x < s ∨ e < x) → (test_support_glob_find y1 s y2 e n).getD x 0 = 0)) := by
  refine ⟨?_, ?_, ?_, ?_⟩
  · intro nm df r h
    rcases hh : nm.head? with _ | hd
    · simp [define_resistance, hh] at h
    rcases hl : nm.getLast? with _ | lst
    · simp [define_resistance, hh, hl] at h
    rcases h0 : findRowIdx df Row.high hd.1 hd.2 with _ | x0
    · simp [define_resistance, hh, hl, h0] at h
    rcases h1 : findRowIdx df Row.high lst.1 lst.2 with _ | x1
    · simp [define_resistance, hh, hl, h0, h1] at h
    have hok : r = lineArray df.n x0 x1
        (calc_line_params (x0 : ℚ) hd.2 (x1 : ℚ) lst.2).1
        (calc_line_params (x0 : ℚ) hd.2 (x1 : ℚ) lst.2).2 := by
      have := h.symm
      simpa [define_resistance, hh, hl, h0, h1] using this
    subst hok
    have hx1 := findRowIdx_lt h1
    obtain ⟨hlen, hin, hout⟩ := lineArray_spec df.n x0 x1
      (calc_line_params (x0 : ℚ) hd.2 (x1 : ℚ) lst.2).1
      (calc_line_params (x0 : ℚ) hd.2 (x1 : ℚ) lst.2).2 hx1
    exact ⟨x0, x1, _, _, findRowIdx_lt h0, hx1, hlen, hin, hout⟩
  · intro nm df r h
    rcases hh : nm.head? with _ | hd
    · simp [define_support, hh] at h
    rcases hl : nm.getLast? with _ | lst
    · simp [define_support, hh, hl] at h
    rcases h0 : findRowIdx df Row.low hd.1 hd.2 with _ | x0
    · simp [define_support, hh, hl, h0] at h
    rcases h1 : findRowIdx df Row.low lst.1 lst.2 with _ | x1
    · simp [define_support, hh, hl, h0, h1] at h
    have hok : r = lineArray df.n x0 x1
        (calc_line_params (x0 : ℚ) hd.2 (x1 : ℚ) lst.2).1
        (calc_line_params (x0 : ℚ) hd.2 (x1 : ℚ) lst.2).2 := by
      have := h.symm
      simpa [define_support, hh, hl, h0, h1] using this
    subst hok
    have hx1 := findRowIdx_lt h1
    obtain ⟨hlen, hin, hout⟩ := lineArray_spec df.n x0 x1
      (calc_line_params (x0 : ℚ) hd.2 (x1 : ℚ) lst.2).1
      (calc_line_params (x0 : ℚ) hd.2 (x1 : ℚ) lst.2).2 hx1
    exact ⟨x0, x1, _, _, findRowIdx_lt h0, hx1, hlen, hin, hout⟩
  · intro y1 y2 s e n he
    exact lineArray_spec n s e _ _ he
  · intro y1 y2 s e n he
    exact lineArray_spec n s e _ _ he

/-- Witness for C8: concrete projections over the four-bar dataframe and a
concrete find-mode array, instantiating all four parts. -/
theorem line_segment_arrays_domain_restricted_witness :
    (∃ x0 x1 a b, x0 < dfFour.n ∧ x1 < dfFour.n ∧
        ([0, 6, 7, 8] : List ℚ).length = dfFour.n ∧
        (∀ x, x0 ≤ x → x ≤ x1 → ([0, 6, 7, 8] : List ℚ).getD x 0 = a * (x : ℚ) + b) ∧
        (∀ x, x < dfFour.n → (x < x0 ∨ x1 < x) → ([0, 6, 7, 8] : List ℚ).getD x 0 = 0)) ∧
    (∃ x0 x1 a b, x0 < dfFour.n ∧ x1 < dfFour.n ∧
        ([1, 2, 3, 0] : List ℚ).length = dfFour.n ∧
        (∀ x, x0 ≤ x → x ≤ x1 → ([1, 2, 3, 0] : List ℚ).getD x 0 = a * (x : ℚ) + b) ∧
        (∀ x, x < dfFour.n → (x < x0 ∨ x1 < x) → ([1, 2, 3, 0] : List ℚ).getD x 0 = 0)) ∧
    (test_resistance_glob_find 7 1 9 3 5).length = 5 ∧
    (test_support_glob_find 7 1 9 3 5).length = 5 := by
  have hres : define_resistance nmFour dfFour = .ok [0, 6, 7, 8] := by
    norm_num [define_resistance, findRowIdx, findRowIdxAux, lineArray, calc_line_params,
      Df.n, dfFour, nmFour, List.range_succ, List.getD]
  have hsup : define_support nnFour dfFour = .ok [1, 2, 3, 0] := by
    norm_num [define_support, findRowIdx, findRowIdxAux, lineArray, calc_line_params,
      Df.n, dfFour, nnFour, List.range_succ, List.getD]
  refine ⟨line_segment_arrays_domain_restricted.1 nmFour dfFour _ hres,
    line_segment_arrays_domain_restricted.2.1 nnFour dfFour _ hsup,
    (line_segment_arrays_domain_restricted.2.2.1 7 9 1 3 5 (by norm_num)).1,
    (line_segment_arrays_domain_restricted.2.2.2 7 9 1 3 5 (by norm_num)).1⟩

lemma optLtB_none_right (a : Option ℚ) : optLtB a none = false := by
  cases a <;> rfl

lemma optLtB_irrefl (a : Option ℚ) : optLtB a a = false := by
  cases a <;> simp [optLtB]

lemma optLtB_asymm {a b : Option ℚ} (h : optLtB a b = true) : optLtB b a = false := by
  cases a <;> cases b <;> simp_all [optLtB]
  linarith

lemma optLtB_ne {a b : Option ℚ} (h : optLtB a b = true) : a ≠ b := by
  intro he
  subst he
  rw [optLtB_irrefl] at h
  exact Bool.false_ne_true h

lemma optLtB_trans {a b c : Option ℚ} (h1 : optLtB a b = true) (h2 : optLtB b c = true) :
    optLtB a c = true := by
  cases a <;> cases b <;> cases c <;> simp_all [optLtB]
  linarith

lemma optLtB_le_lt {a b c : Option ℚ} (h1 : optLtB a b = false) (h2 : optLtB a c = true) :
    optLtB b c = true := by
  cases a <;> cases b <;> cases c <;> simp_all [optLtB]
  linarith

lemma optLtB_le_le {a b c : Option ℚ} (h1 : optLtB a b = false) (h2 : optLtB b c = false) :
    optLtB a c = false := by
  cases a <;> cases b <;> cases c <;> simp_all [optLtB]
  linarith

lemma omax_eq_left {a b : Option ℚ} (h : optLtB a b = false) : omax a b = a := by
  simp [omax, h]

lemma omax_eq_right {a b : Option ℚ} (h : optLtB a b = true) : omax a b = b := by
  simp [omax, h]

lemma maxScoreL_ge (sc : ℕ × ℕ → Option ℚ) :
    ∀ (ps : List (ℕ × ℕ)), ∀ q ∈ ps, optLtB (maxScoreL sc ps) (sc q) = false := by
  intro ps
  induction ps with
  | nil => intro q hq; simp at hq
  | cons p ps ih =>
    intro q hq
    rcases List.mem_cons.mp hq with rfl | hq2
    · by_cases hx : optLtB (sc q) (maxScoreL sc ps) = true
      · rw [maxScoreL, omax_eq_right hx]
        exact optLtB_asymm hx
      · rw [maxScoreL, omax_eq_left (Bool.eq_false_iff.mpr hx)]
        exact optLtB_irrefl _
    · by_cases hx : optLtB (sc p) (maxScoreL sc ps) = true
      · rw [maxScoreL, omax_eq_right hx]
        exact ih q hq2
      · rw [maxScoreL, omax_eq_left (Bool.eq_false_iff.mpr hx)]
        exact optLtB_le_le (Bool.eq_false_iff.mpr hx) (ih q hq2)

lemma maxScoreL_attained (sc : ℕ × ℕ → Option ℚ) :
    ∀ (ps : List (ℕ × ℕ)), maxScoreL sc ps = none ∨ ∃ p ∈ ps, sc p = maxScoreL sc ps := by
  intro ps
  induction ps with
  | nil => exact Or.inl rfl
  | cons p ps ih =>
    by_cases hx : optLtB (sc p) (maxScoreL sc ps) = true
    · rw [maxScoreL, omax_eq_right hx]
      rcases ih with hnone | ⟨p0, hp0, he⟩
      · rw [hnone, optLtB_none_right] at hx
        exact absurd hx Bool.false_ne_true
      · exact Or.inr ⟨p0, List.mem_cons_of_mem _ hp0, he⟩
    · rw [maxScoreL, omax_eq_left (Bool.eq_false_iff.mpr hx)]
      exact Or.inr ⟨p, List.mem_cons_self _ _, rfl⟩

lemma maxScoreL_ne_none (sc : ℕ × ℕ → Option ℚ) (ps : List (ℕ × ℕ))
    (h : ∃ p ∈ ps, sc p ≠ none) : optLtB none (maxScoreL sc ps) = true := by
  obtain ⟨p, hp, hne⟩ := h
  have hge := maxScoreL_ge sc ps p hp
  rcases hm : maxScoreL sc ps with _ | v
  · rw [hm] at hge
    rcases hs : sc p with _ | w
    · exact absurd hs hne
    · rw [hs] at hge
      simp [optLtB] at hge
  · rfl

/-- One step of the best-so-far fold of `global_trend`. -/
def bestStep (sc : ℕ × ℕ → Option ℚ) (pk : ℕ → ℕ) (acc : Option ℚ × ℕ × ℕ)
    (p : ℕ × ℕ) : Option ℚ × ℕ × ℕ :=
  if optLtB acc.1 (sc p) then (sc p, pk p.1, pk p.2) else acc

lemma foldBestPair_eq_foldl (sc : ℕ × ℕ → Option ℚ) (pk : ℕ → ℕ) (prs : List (ℕ × ℕ)) :
    foldBestPair sc pk prs = prs.foldl (bestStep sc pk) (none, 0, 0) := rfl

lemma foldl_bestStep_spec (sc : ℕ × ℕ → Option ℚ) (pk : ℕ → ℕ) :
    ∀ (prs : List (ℕ × ℕ)) (acc : Option ℚ × ℕ × ℕ),
      prs.foldl (bestStep sc pk) acc =
        if optLtB acc.1 (maxScoreL sc prs) then
          match prs.find? (fun p => sc p == maxScoreL sc prs) with
          | some p0 => (sc p0, pk p0.1, pk p0.2)
          | none => acc
        else acc := by
  intro prs
  induction prs with
  | nil =>
    intro acc
    rw [List.foldl_nil, maxScoreL, optLtB_none_right, if_neg (by simp)]
  | cons p ps ih =>
    intro acc
    rw [List.foldl_cons]
    by_cases hA : optLtB acc.1 (sc p) = true
    · have hstep : bestStep sc pk acc p = (sc p, pk p.1, pk p.2) := by
        simp [bestStep, hA]
      rw [hstep, ih]
      by_cases hxM : optLtB (sc p) (maxScoreL sc ps) = true
      · -- the tail still improves on p
        have hM : maxScoreL sc (p :: ps) = maxScoreL sc ps := by
          rw [maxScoreL, omax_eq_right hxM]
        rcases maxScoreL_attained sc ps with hnone | ⟨p0, hp0, hp0e⟩
        · rw [hnone, optLtB_none_right] at hxM
          exact absurd hxM Bool.false_ne_true
        rcases hf : ps.find? (fun q => sc q == maxScoreL sc ps) with _ | p1
        · exfalso
          have := List.find?_eq_none.mp hf p0 hp0
          rw [hp0e] at this
          simp at this
        · rw [if_pos hxM, hM]
          have hcond : optLtB acc.1 (maxScoreL sc ps) = true := optLtB_trans hA hxM
          rw [if_pos hcond]
          have hpne : (sc p == maxScoreL sc ps) = false := by
            have := optLtB_ne hxM
            simp [this]
          rw [List.find?_cons_of_neg _ (by simp [hpne]), hf]
      · -- p itself is the new maximum
        have hxM2 : optLtB (sc p) (maxScoreL sc ps) = false := Bool.eq_false_iff.mpr hxM
        have hM : maxScoreL sc (p :: ps) = sc p := by
          rw [maxScoreL, omax_eq_left hxM2]
        rw [if_neg (by rw [hxM2]; simp), hM, if_pos hA]
        rw [List.find?_cons_of_pos _ (by simp)]
    · have hA2 : optLtB acc.1 (sc p) = false := Bool.eq_false_iff.mpr hA
      have hstep : bestStep sc pk acc p = acc := by
        simp [bestStep, hA2]
      rw [hstep, ih]
      by_cases hAM : optLtB acc.1 (maxScoreL sc ps) = true
      · have hxM : optLtB (sc p) (maxScoreL sc ps) = true := optLtB_le_lt hA2 hAM
        have hM : maxScoreL sc (p :: ps) = maxScoreL sc ps := by
          rw [maxScoreL, omax_eq_right hxM]
        rw [if_pos hAM, hM, if_pos hAM]
        have hpne : (sc p == maxScoreL sc ps) = false := by
          have := optLtB_ne hxM
          simp [this]
        rw [List.find?_cons_of_neg _ (by simp [hpne])]
      · have hAM2 : optLtB acc.1 (maxScoreL sc ps) = false := Bool.eq_false_iff.mpr hAM
        have hM : optLtB acc.1 (maxScoreL sc (p :: ps)) = false := by
          rw [maxScoreL]
          by_cases hx : optLtB (sc p) (maxScoreL sc ps) = true
          · rw [omax_eq_right hx]
            exact hAM2
          · rw [omax_eq_left (Bool.eq_false_iff.mpr hx)]
            exact hA2
        rw [if_neg (by rw [hAM2]; simp), if_neg (by rw [hM]; simp)]

lemma foldBestPair_all_none (sc : ℕ × ℕ → Option ℚ) (pk : ℕ → ℕ) (prs : List (ℕ × ℕ))
    (h : ∀ p ∈ prs, sc p = none) : foldBestPair sc pk prs = (none, 0, 0) := by
  rw [foldBestPair_eq_foldl, foldl_bestStep_spec]
  have hM : maxScoreL sc prs = none := by
    rcases maxScoreL_attained sc prs with hnone | ⟨p0, hp0, hp0e⟩
    · exact hnone
    · rw [← hp0e, h p0 hp0]
  rw [hM, optLtB_none_right, if_neg (by simp)]

lemma scoreResAux_closed (resist data_ : List ℚ) (mtd : ℚ) :
    ∀ (js : List ℕ) (s : ℚ) (t : ℕ),
      scoreResAux resist data_ mtd js s t =
        if ∃ j ∈ js, data_.getD j 0 ≠ 0 ∧
            resist.getD j 0 * (1 / 100) < data_.getD j 0 - resist.getD j 0 then none
        else some (s + ((js.filter (fun j => decide (data_.getD j 0 ≠ 0))).map
            (fun j => 1 / (1 + |data_.getD j 0 - resist.getD j 0|))).sum,
          t + (js.filter (fun j => decide (data_.getD j 0 ≠ 0) &&
            decide (|data_.getD j 0 - resist.getD j 0| ≤ mtd))).length) := by
  intro js
  induction js with
  | nil => intro s t; simp [scoreResAux]
  | cons i is ih =>
    intro s t
    by_cases hd : data_.getD i 0 ≠ 0
    · by_cases hbr : resist.getD i 0 * (1 / 100) < data_.getD i 0 - resist.getD i 0
      · have hL : scoreResAux resist data_ mtd (i :: is) s t = none := by
          simp only [scoreResAux]
          rw [if_pos hd, if_pos hbr]
        rw [hL, if_pos ⟨i, List.mem_cons_self _ _, hd, hbr⟩]
      · have hL : scoreResAux resist data_ mtd (i :: is) s t
            = scoreResAux resist data_ mtd is
              (s + 1 / (1 + |data_.getD i 0 - resist.getD i 0|))
              (if |data_.getD i 0 - resist.getD i 0| ≤ mtd then t + 1 else t) := by
          simp only [scoreResAux]
          rw [if_pos hd, if_neg hbr]
        rw [hL, ih]
        have hcons : (∃ j ∈ i :: is, data_.getD j 0 ≠ 0 ∧
              resist.getD j 0 * (1 / 100) < data_.getD j 0 - resist.getD j 0) ↔
            (∃ j ∈ is, data_.getD j 0 ≠ 0 ∧
              resist.getD j 0 * (1 / 100) < data_.getD j 0 - resist.getD j 0) := by
          constructor
          · rintro ⟨j, hj, hP⟩
            rcases List.mem_cons.mp hj with rfl | hj2
            · exact absurd hP.2 hbr
            · exact ⟨j, hj2, hP⟩
          · rintro ⟨j, hj, hP⟩
            exact ⟨j, List.mem_cons_of_mem _ hj, hP⟩
        by_cases hex : ∃ j ∈ is, data_.getD j 0 ≠ 0 ∧
            resist.getD j 0 * (1 / 100) < data_.getD j 0 - resist.getD j 0
        · rw [if_pos hex, if_pos (hcons.mpr hex)]
        · rw [if_neg hex, if_neg (fun hc => hex (hcons.mp hc))]
          rw [List.filter_cons, List.filter_cons]
          rw [if_pos (decide_eq_true hd)]
          by_cases ht : |data_.getD i 0 - resist.getD i 0| ≤ mtd
          · rw [if_pos ht, if_pos (by rw [decide_eq_true hd, decide_eq_true ht]; rfl)]
            simp only [List.map_cons, List.sum_cons, List.length_cons,
              Option.some.injEq, Prod.mk.injEq]
            constructor
            · ring
            · omega
          · rw [if_neg ht, if_neg (by rw [decide_eq_false ht, Bool.and_false]; exact
              Bool.false_ne_true)]
            simp only [List.map_cons, List.sum_cons, Option.some.injEq, Prod.mk.injEq]
            constructor
            · ring
            · trivial
    · have hL : scoreResAux resist data_ mtd (i :: is) s t
          = scoreResAux resist data_ mtd is s t := by
        simp only [scoreResAux]
        rw [if_neg hd]
      rw [hL, ih]
      have hcons : (∃ j ∈ i :: is, data_.getD j 0 ≠ 0 ∧
            resist.getD j 0 * (1 / 100) < data_.getD j 0 - resist.getD j 0) ↔
          (∃ j ∈ is, data_.getD j 0 ≠ 0 ∧
            resist.getD j 0 * (1 / 100) < data_.getD j 0 - resist.getD j 0) := by
        constructor
        · rintro ⟨j, hj, hP⟩
          rcases List.mem_cons.mp hj with rfl | hj2
          · exact absurd hP.1 hd
          · exact ⟨j, hj2, hP⟩
        · rintro ⟨j, hj, hP⟩
          exact ⟨j, List.mem_cons_of_mem _ hj, hP⟩
      by_cases hex : ∃ j ∈ is, data_.getD j 0 ≠ 0 ∧
          resist.getD j 0 * (1 / 100) < data_.getD j 0 - resist.getD j 0
      · rw [if_pos hex, if_pos (hcons.mpr hex)]
      · rw [if_neg hex, if_neg (fun hc => hex (hcons.mp hc))]
        rw [List.filter_cons, List.filter_cons]
        rw [if_neg (by rw [decide_eq_false hd]; exact Bool.false_ne_true),
          if_neg (by rw [decide_eq_false hd, Bool.false_and]; exact Bool.false_ne_true)]

lemma score_resistance_closed (resist data_ : List ℚ) (mtd : ℚ) :
    score_resistance resist data_ mtd =
      if ∃ j ∈ List.range data_.length, data_.getD j 0 ≠ 0 ∧
          resist.getD j 0 * (1 / 100) < data_.getD j 0 - resist.getD j 0 then none
      else some (
        (((List.range data_.length).filter (fun j => decide (data_.getD j 0 ≠ 0))).map
            (fun j => 1 / (1 + |data_.getD j 0 - resist.getD j 0|))).sum
          * (1 + ((((List.range data_.length).filter (fun j =>
              decide (data_.getD j 0 ≠ 0) &&
              decide (|data_.getD j 0 - resist.getD j 0| ≤ mtd))).length : ℕ) : ℚ)
            / (data_.length : ℚ))
          * ((data_.length : ℚ)) ^ 2) := by
  rw [score_resistance, scoreResAux_closed]
  by_cases hex : ∃ j ∈ List.range data_.length, data_.getD j 0 ≠ 0 ∧
      resist.getD j 0 * (1 / 100) < data_.getD j 0 - resist.getD j 0
  · rw [if_pos hex, if_pos hex]
  · rw [if_neg hex, if_neg hex]
    simp

/-- C3 (amended): the pairwise global search.  Part 1: a pair's score is `-inf`
exactly when some nonzero benchmark point breaks out above the candidate line,
and otherwise equals `(Σ 1/(1+|diff|)) * (1 + touches/n) * n²` where the sum,
touch count and breakout test range over the nonzero benchmark entries, but `n`
is the length of the sliced arrays — the number of bar indices between the
anchors inclusive — not the number of benchmark points.  Part 2: the search
scans pairs in ascending-`i`-then-ascending-`j` order and, provided some pair is
accepted, retains the first pair in scan order achieving the maximum score. -/
theorem global_pair_search_spec :
    (∀ (resist data_ : List ℚ) (mtd : ℚ),
      (score_resistance resist data_ mtd = none ↔
        ∃ j ∈ List.range data_.length, data_.getD j 0 ≠ 0 ∧
          resist.getD j 0 * (1 / 100) < data_.getD j 0 - resist.getD j 0) ∧
      ((¬ ∃ j ∈ List.range data_.length, data_.getD j 0 ≠ 0 ∧
          resist.getD j 0 * (1 / 100) < data_.getD j 0 - resist.getD j 0) →
        score_resistance resist data_ mtd = some (
          (((List.range data_.length).filter (fun j => decide (data_.getD j 0 ≠ 0))).map
              (fun j => 1 / (1 + |data_.getD j 0 - resist.getD j 0|))).sum
            * (1 + ((((List.range data_.length).filter (fun j =>
                decide (data_.getD j 0 ≠ 0) &&
                decide (|data_.getD j 0 - resist.getD j 0| ≤ mtd))).length : ℕ) : ℚ)
              / (data_.length : ℚ))
            * ((data_.length : ℚ)) ^ 2))) ∧
    (∀ (df : Df) (lr : ℚ),
      (∃ p ∈ pairIdx (maxPeaksOf df lr).length,
          resPairScore df (maxPeaksOf df lr) p ≠ none) →
      ∃ p0, (pairIdx (maxPeaksOf df lr).length).find?
          (fun p => resPairScore df (maxPeaksOf df lr) p ==
            maxScoreL (resPairScore df (maxPeaksOf df lr))
              (pairIdx (maxPeaksOf df lr).length)) = some p0 ∧
        bestResOf df lr = (resPairScore df (maxPeaksOf df lr) p0,
          (maxPeaksOf df lr).getD p0.1 0, (maxPeaksOf df lr).getD p0.2 0) ∧
        (∀ q ∈ pairIdx (maxPeaksOf df lr).length,
          optLtB (resPairScore df (maxPeaksOf df lr) p0)
            (resPairScore df (maxPeaksOf df lr) q) = false)) := by
  constructor
  · intro resist data_ mtd
    constructor
    · rw [score_resistance_closed]
      by_cases hex : ∃ j ∈ List.range data_.length, data_.getD j 0 ≠ 0 ∧
          resist.getD j 0 * (1 / 100) < data_.getD j 0 - resist.getD j 0
      · rw [if_pos hex]
        exact iff_of_true rfl hex
      · rw [if_neg hex]
        exact iff_of_false (by simp) hex
    · intro hex
      rw [score_resistance_closed, if_neg hex]
  · intro df lr hacc
    have hM := maxScoreL_ne_none (resPairScore df (maxPeaksOf df lr))
      (pairIdx (maxPeaksOf df lr).length) hacc
    rcases maxScoreL_attained (resPairScore df (maxPeaksOf df lr))
        (pairIdx (maxPeaksOf df lr).length) with hnone | ⟨pw, hpw, hpwe⟩
    · rw [hnone] at hM
      simp [optLtB] at hM
    rcases hf : (pairIdx (maxPeaksOf df lr).length).find?
        (fun p => resPairScore df (maxPeaksOf df lr) p ==
          maxScoreL (resPairScore df (maxPeaksOf df lr))
            (pairIdx (maxPeaksOf df lr).length)) with _ | p0
    · exfalso
      have hnone2 := List.find?_eq_none.mp hf pw hpw
      rw [hpwe] at hnone2
      simp at hnone2
    · have hbeq := List.find?_some hf
      have hp0eq : resPairScore df (maxPeaksOf df lr) p0
          = maxScoreL (resPairScore df (maxPeaksOf df lr))
            (pairIdx (maxPeaksOf df lr).length) := eq_of_beq hbeq
      refine ⟨p0, rfl, ?_, ?_⟩
      · rw [bestResOf, foldBestPair_eq_foldl, foldl_bestStep_spec, if_pos hM, hf]
      · intro q hq
        rw [hp0eq]
        exact maxScoreL_ge _ _ q hq

/-- Witness for C3: on the positive five-bar dataframe the only pair (peaks 1
and 3) is retained with score 30, and the score formula evaluates on its sliced
arrays (length-3 slice, two nonzero benchmark points, two touches). -/
theorem global_pair_search_spec_witness :
    bestResOf dfPos 1 = (some 30, 1, 3) ∧
    score_resistance [10, 10, 10] [10, 0, 10] (1 / 1000) = some 30 := by
  have hk : maxPeaksOf dfPos 1 = [1, 3] := by
    norm_num [maxPeaksOf, find_peaks_embed, localMaxima, localMaximaAux, plateauEnd,
      prominence, variance_total, sampleVar, listMean, Df.high, Df.low, dfPos]
  have hpair : pairIdx ([1, 3] : List ℕ).length = [(0, 1)] := rfl
  have hs : resPairScore dfPos [1, 3] (0, 1) = some 30 := by
    norm_num [resPairScore, test_resistance_glob_score, score_resistance, scoreResAux,
      lineArray, benchArray, rangeIncl, slicePy, calc_line_params, Df.n, Df.high, Df.highD,
      dfPos, List.range_succ, List.getD]
  constructor
  · obtain ⟨p0, hfind, hbest, hmax⟩ := global_pair_search_spec.2 dfPos 1
      ⟨(0, 1), by rw [hk, hpair]; exact List.mem_cons_self _ _, by rw [hk, hs]; simp⟩
    have hp0 : p0 = (0, 1) := by
      have hmem := List.mem_of_find?_eq_some hfind
      rw [hk, hpair] at hmem
      simpa using hmem
    subst hp0
    rw [hbest, hk, hs]
    norm_num [List.getD]
  · have hnx : ¬ ∃ j ∈ List.range ([10, 0, 10] : List ℚ).length,
        ([10, 0, 10] : List ℚ).getD j 0 ≠ 0 ∧
        ([10, 10, 10] : List ℚ).getD j 0 * (1 / 100)
          < ([10, 0, 10] : List ℚ).getD j 0 - ([10, 10, 10] : List ℚ).getD j 0 := by
      rintro ⟨j, hj, hP⟩
      have hj3 : j < 3 := by simpa using List.mem_range.mp hj
      interval_cases j
      · revert hP
        norm_num [List.getD]
      · revert hP
        norm_num [List.getD]
      · revert hP
        norm_num [List.getD]
    have h := (global_pair_search_spec.1 [10, 10, 10] [10, 0, 10] (1 / 1000)).2 hnx
    refine h.trans ?_
    norm_num [List.range_succ, List.getD]

/-- C3 (counterexample): for the pair of peaks 1 and 3 of the positive five-bar
dataframe, the code's score is 30 (it weights by the slice length n = 3), while
the spec-worded score with n = the number of nonzero benchmark points (2) would
be 16: the claim's formula does not match the code. -/
theorem global_pair_score_n_counterexample :
    test_resistance_glob_score 10 1 10 3 dfPos [1, 3] 0 1 = some 30 ∧
    specTestResistanceGlobScore 10 1 10 3 dfPos [1, 3] 0 1 = some 16 ∧
    (some (30 : ℚ)) ≠ (some (16 : ℚ)) := by
  refine ⟨?_, ?_, by norm_num⟩
  · norm_num [test_resistance_glob_score, score_resistance, scoreResAux, lineArray,
      benchArray, rangeIncl, slicePy, calc_line_params, Df.n, Df.high, dfPos,
      List.range_succ, List.getD]
  · norm_num [specTestResistanceGlobScore, specScoreResistance, scoreResAux, lineArray,
      benchArray, rangeIncl, slicePy, calc_line_params, Df.n, Df.high, dfPos,
      List.range_succ, List.getD]

/-- C1 (amended): when every candidate pair is rejected on both sides (all pair
scores are `-inf`), `global_trend` does not fail: the best-pair trackers keep
their initial `(0, 0)` anchors and it returns the degenerate slope-0 line arrays
anchored at bar index 0 (holding `High[0]` resp. `Low[0]` there and 0
elsewhere), together with the peak list. -/
theorem global_trend_all_rejected_degenerate (df : Df) (lr : ℚ)
    (hmax : ¬ (maxPeaksOf df lr).length < 2) (hmin : ¬ (minPeaksOf df lr).length < 2)
    (hres : ∀ p ∈ pairIdx (maxPeaksOf df lr).length,
      resPairScore df (maxPeaksOf df lr) p = none)
    (hsup : ∀ p ∈ pairIdx (minPeaksOf df lr).length,
      supPairScore df (minPeaksOf df lr) p = none) :
    global_trend df lr = .ok
      (lineArray df.n 0 0 0 (df.highD 0), lineArray df.n 0 0 0 (df.lowD 0),
        maxPeaksOf df lr) := by
  have hbr : bestResOf df lr = (none, 0, 0) := by
    simp only [bestResOf]
    exact foldBestPair_all_none _ _ _ hres
  have hbs : bestSupOf df lr = (none, 0, 0) := by
    simp only [bestSupOf]
    exact foldBestPair_all_none _ _ _ hsup
  simp only [global_trend]
  rw [if_neg hmax, if_neg hmin, hbr, hbs]
  norm_num [test_resistance_glob_find, test_support_glob_find, calc_line_params]

/-- Witness for C1 on the all-negative dataframe: both peak lists are `[1, 3]`,
the unique pair on each side is rejected, and the returned "lines" are the
degenerate arrays anchored at bar 0. -/
theorem global_trend_all_rejected_degenerate_witness :
    global_trend dfNeg 1 = .ok ([-10, 0, 0, 0, 0], [-11, 0, 0, 0, 0], [1, 3]) := by
  have hkmax : maxPeaksOf dfNeg 1 = [1, 3] := by
    norm_num [maxPeaksOf, find_peaks_embed, localMaxima, localMaximaAux, plateauEnd,
      prominence, variance_total, sampleVar, listMean, Df.high, Df.low, dfNeg]
  have hkmin : minPeaksOf dfNeg 1 = [1, 3] := by
    norm_num [minPeaksOf, find_peaks_embed, localMaxima, localMaximaAux, plateauEnd,
      prominence, variance_total, sampleVar, listMean, Df.high, Df.low, dfNeg]
  have hpair : pairIdx ([1, 3] : List ℕ).length = [(0, 1)] := rfl
  have hres : ∀ p ∈ pairIdx (maxPeaksOf dfNeg 1).length,
      resPairScore dfNeg (maxPeaksOf dfNeg 1) p = none := by
    rw [hkmax, hpair]
    intro p hp
    have hp1 : p = (0, 1) := by simpa using hp
    subst hp1
    norm_num [resPairScore, test_resistance_glob_score, score_resistance, scoreResAux,
      lineArray, benchArray, rangeIncl, slicePy, calc_line_params, Df.n, Df.high, Df.highD,
      dfNeg, List.range_succ, List.getD]
  have hsup : ∀ p ∈ pairIdx (minPeaksOf dfNeg 1).length,
      supPairScore dfNeg (minPeaksOf dfNeg 1) p = none := by
    rw [hkmin, hpair]
    intro p hp
    have hp1 : p = (0, 1) := by simpa using hp
    subst hp1
    norm_num [supPairScore, test_support_glob_score, score_support, scoreSupAux,
      lineArray, benchArray, rangeIncl, slicePy, calc_line_params, Df.n, Df.low, Df.lowD,
      dfNeg, List.range_succ, List.getD]
  have h := global_trend_all_rejected_degenerate dfNeg 1
    (by rw [hkmax]; norm_num) (by rw [hkmin]; norm_num) hres hsup
  refine h.trans ?_
  rw [hkmax]
  norm_num [lineArray, Df.n, Df.highD, Df.lowD, Df.high, Df.low, dfNeg,
    List.range_succ, List.getD]

set_option maxHeartbeats 1600000 in
/-- C1 (counterexample): on the all-negative dataframe every candidate pair on
both sides is rejected by the breakout check, yet `global_trend` returns line
arrays (it raises no error): the claimed `NoValidGlobalLine` failure does not
exist in the code. -/
theorem global_trend_no_failure_counterexample :
    (∀ p ∈ pairIdx (maxPeaksOf dfNeg 1).length,
      resPairScore dfNeg (maxPeaksOf dfNeg 1) p = none) ∧
    (∀ p ∈ pairIdx (minPeaksOf dfNeg 1).length,
      supPairScore dfNeg (minPeaksOf dfNeg 1) p = none) ∧
    global_trend dfNeg 1 = .ok ([-10, 0, 0, 0, 0], [-11, 0, 0, 0, 0], [1, 3]) := by
  have hkmax : maxPeaksOf dfNeg 1 = [1, 3] := by
    norm_num [maxPeaksOf, find_peaks_embed, localMaxima, localMaximaAux, plateauEnd,
      prominence, variance_total, sampleVar, listMean, Df.high, Df.low, dfNeg]
  have hkmin : minPeaksOf dfNeg 1 = [1, 3] := by
    norm_num [minPeaksOf, find_peaks_embed, localMaxima, localMaximaAux, plateauEnd,
      prominence, variance_total, sampleVar, listMean, Df.high, Df.low, dfNeg]
  have hpair : pairIdx ([1, 3] : List ℕ).length = [(0, 1)] := rfl
  refine ⟨?_, ?_, ?_⟩
  · rw [hkmax, hpair]
    intro p hp
    have hp1 : p = (0, 1) := by simpa using hp
    subst hp1
    norm_num [resPairScore, test_resistance_glob_score, score_resistance, scoreResAux,
      lineArray, benchArray, rangeIncl, slicePy, calc_line_params, Df.n, Df.high, Df.highD,
      dfNeg, List.range_succ, List.getD]
  · rw [hkmin, hpair]
    intro p hp
    have hp1 : p = (0, 1) := by simpa using hp
    subst hp1
    norm_num [supPairScore, test_support_glob_score, score_support, scoreSupAux,
      lineArray, benchArray, rangeIncl, slicePy, calc_line_params, Df.n, Df.low, Df.lowD,
      dfNeg, List.range_succ, List.getD]
  · norm_num [global_trend, maxPeaksOf, minPeaksOf, bestResOf, bestSupOf, find_peaks_embed,
      localMaxima, localMaximaAux, plateauEnd, prominence, variance_total, sampleVar,
      listMean, Df.high, Df.low, Df.n, Df.highD, Df.lowD, dfNeg, foldBestPair, pairIdx,
      resPairScore, supPairScore, test_resistance_glob_score, test_support_glob_score,
      test_resistance_glob_find, test_support_glob_find, score_resistance, score_support,
      scoreResAux, scoreSupAux, lineArray, benchArray, rangeIncl, slicePy, calc_line_params,
      optLtB, List.range_succ, List.getD, List.filterMap_cons]

end StockSpec
